import Mathlib

/-!
Verification development for the slack-bot settings resolution engine.

Shallow embedding of `src/utils.py` (sanitizers), `src/commands.py`
(settings resolver, project binder, field mutator, command boundary) and
`bot/rate_limiter.py` (sliding-window rate limiter).

Modelling conventions:
* MongoDB organization documents are modelled by the `Org` structure whose
  fields are `Option`-valued (absent field = `none`); the `orgs` collection
  is an association list from `team_id` to `Org` with first-match lookup
  (`findOrg`) and replace-first-or-append update (`setOrg`).
* Schemaless project-settings subdocuments are association lists
  `Doc = List (String × Value)`; Python dict merge `\x7b**a, **b\x7d` is `dictMerge`
  and Python dict equality is `pyDocEq` (key-set plus value comparison).
* Timestamps (`datetime.utcnow()`) are abstracted as integers; the
  ISO-format serialization `isoformat() + "Z"` is abstracted as the
  injective function `isoZ`.
* Python exceptions are the `Except` monad: `Err.val` for `ValueError`s and
  Python key/attribute errors, `Err.db` for storage-layer (pymongo) errors.
  Storage failures are injected via a `dbFail`/`failAt` parameter: `some e`
  means the storage layer raises `e` when first touched in the call.
* Mutating storage writes are instrumented with `WTag` markers so that the
  number of corrective writes of a call is observable; a tag is recorded
  exactly when the corresponding `update_one`/`insert_one` actually
  modified the store.
-/

deriving instance DecidableEq for Except

/-- Python `str.lstrip()`: drop leading whitespace characters. -/
def pyLstripL (l : List Char) : List Char := l.dropWhile Char.isWhitespace

/-- Python `str.strip()`: drop leading and trailing whitespace characters. -/
def pyStripL (l : List Char) : List Char :=
  ((pyLstripL l).reverse.dropWhile Char.isWhitespace).reverse

/-- Python `str.strip()` on `String`. -/
def pyStrip (s : String) : String := String.mk (pyStripL s.toList)

/-- Python `str.lower()` (ASCII, as used on command keywords). -/
def pyLower (s : String) : String := String.mk (s.toList.map Char.toLower)

/-- Does the character list contain a `$` immediately followed by a letter?
Models the regex search `\$[a-z]+` with `re.IGNORECASE`. -/
def hasDollarSeq : List Char → Bool
  | [] => false
  | [_] => false
  | a :: b :: rest => (a = '$' && b.isAlpha) || hasDollarSeq (b :: rest)

/-- Characters allowed by the Slack-id regex `^[A-Za-z0-9_-]+$`. -/
def isSlackIdChar (c : Char) : Bool := c.isAlphanum || c = '-' || c = '_'

/-- `utils.sanitize_slack_id`, non-None branch: validate and return the
trimmed identifier, or fail with the `ValueError` message. -/
def sanitizeIdCore (identifier : String) (name : String) : Except String String :=
  if identifier = "" then .error (name ++ " cannot be empty")
  else
    let id := pyStrip identifier
    if id = "" then .error (name ++ " cannot be empty after stripping whitespace")
    else if hasDollarSeq id.toList then
      .error (name ++ " contains invalid characters that could be used for injection: " ++ id)
    else if id.toList.head? = some '$' then
      .error (name ++ " contains invalid characters that could be used for injection: " ++ id)
    else if id.toList.contains '\x7b' then
      .error (name ++ " contains invalid characters that could be used for injection: " ++ id)
    else if id.toList.contains '\x7d' then
      .error (name ++ " contains invalid characters that could be used for injection: " ++ id)
    else if ¬ (id.toList.all isSlackIdChar && id ≠ "") then
      .error (name ++ " contains invalid characters. " ++
        "Only alphanumeric characters, hyphens, and underscores are allowed: " ++ id)
    else if 256 < id.length then
      .error (name ++ " is too long (max 256 characters): " ++ toString id.length)
    else .ok id

/-- `utils.sanitize_slack_id` including the `None` handling. -/
def sanitize_slack_id (identifier : Option String) (name : String) (allow_none : Bool) :
    Except String (Option String) :=
  match identifier with
  | none => if allow_none then .ok none else .error (name ++ " cannot be None")
  | some s => (sanitizeIdCore s name).map some

/-- `utils.sanitize_project_name`: validate a project name destined for a
MongoDB dotted field path. -/
def sanitize_project_name (project_name : String) : Except String String :=
  if project_name = "" then .error "Project name cannot be None or empty"
  else
    let p := pyStrip project_name
    if p = "" then .error "Project name cannot be empty after stripping whitespace"
    else if p.toList.contains '.' then
      .error ("Project name cannot contain dots (.) as they are used for MongoDB field paths. " ++
        "Invalid name: " ++ p)
    else if p.toList.contains '$' then
      .error ("Project name cannot contain dollar signs ($) as they are MongoDB operators. " ++
        "Invalid name: " ++ p)
    else if hasDollarSeq p.toList then
      .error ("Project name contains MongoDB operators: " ++ p)
    else if p.toList.contains '\x7b' || p.toList.contains '\x7d' then
      .error ("Project name cannot contain braces (\x7b\x7d). Invalid name: " ++ p)
    else if 128 < p.length then
      .error ("Project name is too long (max 128 characters): " ++ toString p.length)
    else .ok p

/-- First index (in characters) at which `needle` occurs in `hay`;
models Python `str.find` (which returns 0 for the empty needle). -/
def findSubIdx : List Char → List Char → Option Nat
  | _, [] => some 0
  | [], _ :: _ => none
  | h :: hs, n :: ns =>
    if (n :: ns).isPrefixOf (h :: hs) then some 0
    else (findSubIdx hs (n :: ns)).map (· + 1)

/-- `utils.strip_command`: remove a case-insensitively matched command phrase
from the text and return the surrounding payload, stripped. -/
def strip_command (text command : String) : String :=
  if text = "" then ""
  else if command = "" then pyStrip text
  else
    let loweredText := (pyLower text).toList
    let loweredCommand := (pyStrip (pyLower command)).toList
    match findSubIdx loweredText loweredCommand with
    | none => pyStrip text
    | some idx =>
      let commandEnd := idx + command.length
      let after := pyLstripL (text.toList.drop commandEnd)
      let before := text.toList.take idx
      String.mk (pyStripL (before ++ after))

/-! ## Document model -/

/-- A MongoDB scalar/value stored in a project-settings subdocument.
Nested dicts occur only as the string-to-string `jira_defaults` mapping. -/
inductive Value
  | vstr (s : String)
  | vbool (b : Bool)
  | vdict (d : List (String × String))
deriving DecidableEq, Repr

/-- A schemaless subdocument: association list of fields (Python dict). -/
abbrev Doc := List (String × Value)

/-- A value stored under `channel_projects.<channel>`: either the legacy
bare project-name string or a structured binding subdocument. -/
inductive CVal
  | cstr (s : String)
  | cdoc (d : Doc)
deriving DecidableEq, Repr

/-- `joined_date` field: ISO string or a native datetime (abstracted `Int`). -/
inductive JDate
  | jstr (s : String)
  | jdate (t : Int)
deriving DecidableEq, Repr

/-- An organization document; `none` models an absent field. -/
structure Org where
  joined_date : Option JDate
  channel_projects : Option (List (String × CVal))
  projects : Option (List (String × Doc))
deriving DecidableEq, Repr

/-- The `organizations` collection, keyed by `team_id` (first match wins). -/
abbrev Store := List (String × Org)

/-- `dict.get` / first-match association-list lookup. -/
def alookup {α : Type} : List (String × α) → String → Option α
  | [], _ => none
  | (k, v) :: rest, key => if k = key then some v else alookup rest key

/-- `dict[k] = v`: replace the first binding of `k`, or append a new one. -/
def aset {α : Type} : List (String × α) → String → α → List (String × α)
  | [], key, v => [(key, v)]
  | (k, w) :: rest, key, v =>
    if k = key then (k, v) :: rest else (k, w) :: aset rest key v

/-- `orgs.find_one(\x7b"team_id": t\x7d)`. -/
def findOrg (st : Store) (t : String) : Option Org := alookup st t

/-- Store the organization document for tenant `t`. -/
def setOrg (st : Store) (t : String) (o : Org) : Store := aset st t o

/-- Python truthiness of a stored value. -/
def valueTruthy : Value → Bool
  | .vstr s => s ≠ ""
  | .vbool b => b
  | .vdict d => d ≠ []

/-- Python `==` on string-to-string dicts (order-insensitive). -/
def sdictEq (a b : List (String × String)) : Bool :=
  a.all (fun kv => alookup b kv.1 = some kv.2) && b.all (fun kv => (alookup a kv.1).isSome)

/-- Python `==` on stored values. -/
def pyValueEq : Value → Value → Bool
  | .vstr a, .vstr b => a = b
  | .vbool a, .vbool b => a = b
  | .vdict a, .vdict b => sdictEq a b
  | _, _ => false

/-- Python `==` on subdocuments: same key set, `==`-equal values. -/
def pyDocEq (a b : Doc) : Bool :=
  (a.all fun kv => match alookup b kv.1 with
    | some v => pyValueEq kv.2 v
    | none => false) &&
  (b.all fun kv => (alookup a kv.1).isSome)

/-- Python `\x7b**d, **s\x7d`: keys of `d` first (values of `s` win), then the new
keys of `s` in their own order. -/
def dictMerge (d s : Doc) : Doc :=
  (d.map fun kv => (kv.1, (alookup s kv.1).getD kv.2)) ++
    s.filter fun kv => (alookup d kv.1).isNone

/-- `datetime.isoformat() + "Z"` on the abstract integer clock. -/
def isoZ (t : Int) : String := toString t ++ "Z"

/-! ## Settings resolver (`commands.get_settings`) -/

/-- Instrumentation: one tag per storage write that actually modified the
store during a resolution call. -/
inductive WTag
  | orgInsert      -- the `$setOnInsert` upsert inserted the organization
  | jdBackfill     -- backfill of an absent `joined_date`
  | cpBackfill     -- backfill of an absent `channel_projects`
  | jdMigrate      -- native-datetime `joined_date` converted to a string
  | mergePersist   -- merged project settings persisted under `projects.<p>`
deriving DecidableEq, Repr

/-- Storage-layer error categories (pymongo exception classes). -/
inductive DbErr
  | connectionFailure
  | serverSelectionTimeout
  | operationFailure
  | pyMongoOther
deriving DecidableEq, Repr

/-- A raised Python exception: a `ValueError`/lookup error carrying its
message, or a storage-layer error. -/
inductive Err
  | val (msg : String)
  | db (e : DbErr)
deriving DecidableEq, Repr

/-- `utils.get_mongodb_error_message`: translate an exception caught at the
command boundary into a generic user-facing message by category. -/
def get_mongodb_error_message : Err → String
  | .db .connectionFailure =>
      "I\x27m having trouble connecting to the database. Please try again in a moment."
  | .db .serverSelectionTimeout =>
      "I\x27m having trouble connecting to the database. Please try again in a moment."
  | .db .operationFailure =>
      "A database operation failed. Please try again or contact support if the issue persists."
  | .db .pyMongoOther =>
      "A database error occurred. Please try again in a moment."
  | .val _ =>
      "An unexpected error occurred while accessing the database. " ++
      "Please try again or contact support."

/-- The hard-coded project defaults of `get_settings`. -/
def PROJECT_DEFAULTS : Doc :=
  [("use_project_context", .vbool false),
   ("project_context", .vstr ""),
   ("bug_report_template", .vstr "\nBug name:\nSteps:\nActual result:\nExpected:\n")]

/-- The organization document inserted by the `$setOnInsert` upsert. -/
def freshOrg (now : Int) : Org :=
  { joined_date := some (.jstr (isoZ now)), channel_projects := some [], projects := none }

/-- The sequence of ensure/backfill/migrate storage operations at the top of
`get_settings` (lines 851-897): upsert-if-absent, `joined_date` backfill,
`channel_projects` backfill, and datetime-to-string migration. Returns the
updated store and the tags of the writes that modified it. -/
def healOrg (t : String) (now : Int) (st : Store) : Store × List WTag :=
  let s1 := match findOrg st t with
    | some _ => (st, ([] : List WTag))
    | none => (setOrg st t (freshOrg now), [WTag.orgInsert])
  let s2 := match findOrg s1.1 t with
    | some o => match o.joined_date with
      | none => (setOrg s1.1 t { o with joined_date := some (.jstr (isoZ now)) },
                 s1.2 ++ [WTag.jdBackfill])
      | some _ => s1
    | none => s1
  let s3 := match findOrg s2.1 t with
    | some o => match o.channel_projects with
      | none => (setOrg s2.1 t { o with channel_projects := some [] },
                 s2.2 ++ [WTag.cpBackfill])
      | some _ => s2
    | none => s2
  match findOrg s3.1 t with
  | some o => match o.joined_date with
    | some (.jdate d) => (setOrg s3.1 t { o with joined_date := some (.jstr (isoZ d)) },
                          s3.2 ++ [WTag.jdMigrate])
    | _ => s3
  | none => s3

/-- Resolve the raw value bound to a channel: a structured binding yields its
`project` field, a legacy binding yields the bare string, otherwise nothing. -/
def resolveBindingVal : Option CVal → Option Value
  | some (.cdoc d) => alookup d "project"
  | some (.cstr s) => some (.vstr s)
  | none => none

/-- `sanitize_project_name` applied to a raw stored value (Python first sees
falsy values fail the emptiness check, then the `isinstance(str)` check). -/
def sanitizeProjectNameVal : Value → Except String String
  | .vstr s => sanitize_project_name s
  | v => if valueTruthy v then .error "Project name must be a string"
         else .error "Project name cannot be None or empty"

/-- `commands.get_settings(team_id, channel_id)`: resolve effective project
settings, self-healing the organization document and the bound project's
settings record. Returns the settings dict, the updated store and the tags
of the storage writes performed. `dbFail = some e` makes the storage layer
raise `e` when first touched. -/
def get_settings (dbFail : Option DbErr) (team_id0 : String) (channel_id0 : Option String)
    (now : Int) (st : Store) : Except Err (Doc × Store × List WTag) :=
  match sanitizeIdCore team_id0 "team_id" with
  | .error e => .error (.val e)
  | .ok team_id =>
    match (match channel_id0 with
           | none => Except.ok (none : Option String)
           | some c => (sanitizeIdCore c "channel_id").map some) with
    | .error e => .error (.val e)
    | .ok channel_id =>
      match dbFail with
      | some e => .error (.db e)
      | none =>
        let h := healOrg team_id now st
        match findOrg h.1 team_id with
        | none =>
          -- "Should not happen after upsert, but handle gracefully"
          match channel_id with
          | none => .ok ([], h.1, h.2)
          | some _ => .ok (PROJECT_DEFAULTS, h.1, h.2)
        | some org =>
          match channel_id with
          | none => .ok ([], h.1, h.2)
          | some cid =>
            let channel_projects := org.channel_projects.getD []
            match resolveBindingVal (alookup channel_projects cid) with
            | none => .ok (PROJECT_DEFAULTS, h.1, h.2)
            | some pv =>
              if ¬ valueTruthy pv then .ok (PROJECT_DEFAULTS, h.1, h.2)
              else
                match sanitizeProjectNameVal pv with
                | .error _ => .ok (PROJECT_DEFAULTS, h.1, h.2)
                | .ok project_name =>
                  let projects := org.projects.getD []
                  let project_settings := (alookup projects project_name).getD []
                  let merged := dictMerge PROJECT_DEFAULTS project_settings
                  if pyDocEq merged project_settings then .ok (merged, h.1, h.2)
                  else
                    .ok (merged,
                      setOrg h.1 team_id
                        { org with projects := some (aset projects project_name merged) },
                      h.2 ++ [WTag.mergePersist])

/-! ## Project binder and field mutator -/

/-- User-facing messages of `commands.py` used by the embedded commands. -/
def msgNoProject : String :=
  "❌ No project is set for this channel.\n" ++
  "Please set a project first using: `use project <project-name>`\n" ++
  "Example: `use project Mobile app`"

def msgProvideProjectName : String :=
  "Please provide a project name. Example:\n`use project Mobile app`"

def msgNoChannelDetected : String :=
  "I couldn\x27t detect the channel for this request."

def msgNoProjectsYet : String :=
  "No project configurations found yet.\n" ++
  "You can create one by mentioning me and saying, for example:\n" ++
  "`use project Mobile app`"

/-- `commands.get_channel_project_name`: read-only binding lookup; storage
errors degrade to `none`, sanitization errors propagate (they are raised
before the `try` block). -/
def get_channel_project_name (dbFail : Option DbErr) (team_id0 channel_id0 : String)
    (st : Store) : Except String (Option Value) :=
  match sanitizeIdCore team_id0 "team_id" with
  | .error e => .error e
  | .ok team_id =>
    match sanitizeIdCore channel_id0 "channel_id" with
    | .error e => .error e
    | .ok channel_id =>
      match dbFail with
      | some _ => .ok none   -- logged, then "return None on error"
      | none =>
        match findOrg st team_id with
        | none => .ok none
        | some org =>
          let channel_projects := org.channel_projects.getD []
          match alookup channel_projects channel_id with
          | some (.cdoc d) => .ok (alookup d "project")
          | some (.cstr s) => .ok (if s = "" then none else some (.vstr s))
          | none => .ok none

/-- `commands._require_project`: `none` when the operation may proceed,
`some msg` when the channel is present but unbound. -/
def require_project (dbFail : Option DbErr) (team_id : String) (channel_id : Option String)
    (st : Store) : Except String (Option String) :=
  match channel_id with
  | none => .ok none
  | some cid =>
    match get_channel_project_name dbFail team_id cid st with
    | .error e => .error e
    | .ok pv =>
      match pv with
      | some v => if valueTruthy v then .ok none else .ok (some msgNoProject)
      | none => .ok (some msgNoProject)

/-- The project-scoped field names of `_update_settings_field`. -/
def PROJECT_FIELDS : List String :=
  ["bug_report_template", "project_context", "use_project_context",
   "jira_token", "jira_url", "jira_bug_query", "jira_email", "jira_defaults"]

/-- `update_one(\x7b"team_id": t\x7d, \x7b"$set": \x7b"projects.<p>.<field>": v\x7d\x7d, upsert=True)`:
set one field of one project subdocument, creating every missing level. -/
def upsertSetProjectField (st : Store) (t p field : String) (v : Value) : Store :=
  match findOrg st t with
  | some org =>
    let projects := org.projects.getD []
    let pdoc := (alookup projects p).getD []
    setOrg st t { org with projects := some (aset projects p (aset pdoc field v)) }
  | none =>
    setOrg st t { joined_date := none, channel_projects := none,
                  projects := some [(p, [(field, v)])] }

/-- `commands._update_settings_field`: route a single field write to the
bound project, or to the implicit `"default"` project when the channel is
absent or unbound; skip the write silently when the stored bound project
name fails sanitization. -/
def update_settings_field (dbFail : Option DbErr) (team_id0 : String)
    (channel_id0 : Option String) (field : String) (value : Value) (st : Store) :
    Except Err Store :=
  match sanitizeIdCore team_id0 "team_id" with
  | .error e => .error (.val e)
  | .ok team_id =>
    match (match channel_id0 with
           | none => Except.ok (none : Option String)
           | some c => (sanitizeIdCore c "channel_id").map some) with
    | .error e => .error (.val e)
    | .ok channel_id =>
      if pyStrip field = "" then .error (.val "Field name must be a non-empty string")
      else
        match dbFail with
        | some e => .error (.db e)
        | none =>
          let channel_projects := match findOrg st team_id with
            | some org => org.channel_projects.getD []
            | none => []
          -- the PROJECT_FIELDS branch and the unknown-field branch of the
          -- source perform the same resolution and write
          match channel_id with
          | some cid =>
            match resolveBindingVal (alookup channel_projects cid) with
            | some pv =>
              if valueTruthy pv then
                match sanitizeProjectNameVal pv with
                | .error _ => .ok st    -- "Skip update if project name is invalid"
                | .ok project_name => .ok (upsertSetProjectField st team_id project_name field value)
              else .ok (upsertSetProjectField st team_id "default" field value)
            | none => .ok (upsertSetProjectField st team_id "default" field value)
          | none => .ok (upsertSetProjectField st team_id "default" field value)

/-- `update_one(\x7b"team_id": t\x7d, \x7b"$set": \x7b"channel_projects.<c>": obj\x7d\x7d, upsert=True)`. -/
def upsertSetChannelBinding (st : Store) (t c : String) (v : CVal) : Store :=
  match findOrg st t with
  | some org =>
    setOrg st t { org with channel_projects := some (aset (org.channel_projects.getD []) c v) }
  | none =>
    setOrg st t { joined_date := none, channel_projects := some [(c, v)], projects := none }

/-- `commands.set_channel_project`: bind a channel to a named project,
preserving an existing `welcome_shown` flag, then force-create the
project's settings record via `get_settings`. -/
def set_channel_project (dbFail : Option DbErr) (text team_id0 channel_id0 : String)
    (now : Int) (st : Store) : Except Err (String × Store) :=
  match sanitizeIdCore team_id0 "team_id" with
  | .error e => .error (.val e)
  | .ok team_id =>
    match sanitizeIdCore channel_id0 "channel_id" with
    | .error e => .error (.val e)
    | .ok channel_id =>
      let project_name0 := pyStrip (strip_command text "use project")
      if project_name0 = "" then .ok (msgProvideProjectName, st)
      else
        match sanitize_project_name project_name0 with
        | .error e => .ok ("Invalid project name: " ++ e, st)
        | .ok project_name =>
          match dbFail with
          | some e => .ok (get_mongodb_error_message (.db e), st)
          | none =>
            let channel_projects : List (String × CVal) := match findOrg st team_id with
              | some org => org.channel_projects.getD []
              | none => []
            let update_obj : Doc :=
              match alookup channel_projects channel_id with
              | some (.cdoc d) =>
                match alookup d "welcome_shown" with
                | some w => [("project", .vstr project_name), ("welcome_shown", w)]
                | none => [("project", .vstr project_name)]
              | _ => [("project", .vstr project_name)]
            let st1 := upsertSetChannelBinding st team_id channel_id (.cdoc update_obj)
            match get_settings none team_id (some channel_id) now st1 with
            | .error e => .ok (get_mongodb_error_message e, st1)
            | .ok (_, st2, _) =>
              .ok ("Channel is now using project configuration *" ++ project_name ++ "*.", st2)

/-- `commands.list_projects`: sorted project names or a guidance message. -/
def list_projects (dbFail : Option DbErr) (team_id0 : String) (st : Store) :
    Except Err (String × Store) :=
  match sanitizeIdCore team_id0 "team_id" with
  | .error e => .error (.val e)
  | .ok team_id =>
    match dbFail with
    | some e => .ok (get_mongodb_error_message (.db e), st)
    | none =>
      let projects := ((findOrg st team_id).bind (·.projects)).getD []
      let names := (projects.map (·.1)).mergeSort (· ≤ ·)
      if names = [] then .ok (msgNoProjectsYet, st)
      else .ok ("Available project configurations:" ++
                String.join (names.map fun n => "\n- " ++ n), st)

/-! ## Rate limiter (`bot/rate_limiter.py`) -/

/-- A stored request timestamp: native datetime (abstract `Int`) or string. -/
inductive RReq
  | rdt (t : Int)
  | rstr (s : String)
deriving DecidableEq, Repr

/-- A rate-limit document, one per `(operation, tenant)` key. -/
structure RLDoc where
  team_id : String
  requests : List RReq
  created_at : Int
  updated_at : Int
deriving DecidableEq, Repr

/-- The `rate_limits` collection, keyed by `rate_limit_key`. -/
abbrev RLStore := List (String × RLDoc)

/-- `datetime.fromisoformat` on the abstract integer clock (the serialized
form is `isoZ`): strings that do not parse are reported as `none`. -/
def parseIsoReq (s : String) : Option Int :=
  if s.endsWith "Z" then (s.dropRight 1).toInt? else s.toInt?

/-- The timestamp-filtering loop of `is_allowed`/`get_remaining_requests`:
keep entries `≥ window_start`, parsing string entries and dropping
unparsable ones. -/
def pruneRequests (reqs : List RReq) (windowStart : Int) : List Int :=
  reqs.filterMap fun r =>
    match r with
    | .rdt t => if windowStart ≤ t then some t else none
    | .rstr s =>
      match parseIsoReq s with
      | some t => if windowStart ≤ t then some t else none
      | none => none

/-- Python `min` on a nonempty list of timestamps (0 on `[]`, never used). -/
def intListMin : List Int → Int
  | [] => 0
  | h :: t => t.foldl min h

/-- The hours-and-minutes wait text of the denial message. -/
def waitMsgOf (untilReset : Int) : String :=
  let hours := untilReset.toNat / 3600
  let minutes := (untilReset.toNat % 3600) / 60
  if 0 < hours then
    toString hours ++ " hour" ++ (if hours ≠ 1 then "s" else "") ++
      (if 0 < minutes then " and " ++ toString minutes ++ " minute" ++
        (if minutes ≠ 1 then "s" else "") else "")
  else toString minutes ++ " minute" ++ (if minutes ≠ 1 then "s" else "")

/-- The rate-limit denial message. -/
def rlDenyMessage (maxRequests : Nat) (untilReset : Int) : String :=
  "You\x27ve reached the daily limit of " ++ toString maxRequests ++
  " AI requests. Please try again in " ++ waitMsgOf untilReset ++ ". (Limit resets daily)"

/-- `RateLimiter.__init__` configuration. -/
structure RateLimiter where
  max_requests : Nat
  window_seconds : Nat
  operation_name : String

/-- Storage-failure injection for the limiter: `some (i, e)` makes the
`i`-th storage operation of the call raise `e` (0 = the initial find). -/
def opFails (failAt : Option (Nat × DbErr)) (i : Nat) : Bool :=
  match failAt with
  | some (j, _) => j = i
  | none => false

/-- `RateLimiter.is_allowed`: sliding-window check. Returns
`((allowed, message), store, raised)` where `raised` records whether an
exception was caught (the function itself never raises: it fails open). -/
def RateLimiter.is_allowed (rl : RateLimiter) (failAt : Option (Nat × DbErr))
    (team_id0 : String) (now : Int) (st : RLStore) :
    (Bool × Option String) × RLStore × Bool :=
  match sanitizeIdCore team_id0 "team_id" with
  | .error _ => ((true, none), st, true)
  | .ok team_id =>
    if opFails failAt 0 then ((true, none), st, true)
    else
      let key := rl.operation_name ++ ":" ++ team_id
      match alookup st key with
      | none =>
        if opFails failAt 1 then ((true, none), st, true)
        else ((true, none), aset st key ⟨team_id, [.rdt now], now, now⟩, false)
      | some doc =>
        let windowStart := now - (rl.window_seconds : Int)
        let valid := pruneRequests doc.requests windowStart
        let deny : Option ((Bool × Option String) × RLStore × Bool) :=
          if rl.max_requests ≤ valid.length then
            if valid = [] then none
            else
              let oldest := intListMin valid
              let untilReset := oldest + (rl.window_seconds : Int) - now
              if 0 < untilReset then
                some ((false, some (rlDenyMessage rl.max_requests untilReset)), st, false)
              else none
          else none
        match deny with
        | some r => r
        | none =>
          if opFails failAt 1 then ((true, none), st, true)
          else ((true, none),
            aset st key { doc with requests := (valid ++ [now]).map .rdt, updated_at := now },
            false)

/-- `RateLimiter.get_remaining_requests`: same pruning, fail open to the
configured maximum. Returns `(remaining, raised)`. -/
def RateLimiter.get_remaining_requests (rl : RateLimiter) (failAt : Option DbErr)
    (team_id0 : String) (now : Int) (st : RLStore) : Nat × Bool :=
  match sanitizeIdCore team_id0 "team_id" with
  | .error _ => (rl.max_requests, true)
  | .ok team_id =>
    match failAt with
    | some _ => (rl.max_requests, true)
    | none =>
      let key := rl.operation_name ++ ":" ++ team_id
      match alookup st key with
      | none => (rl.max_requests, false)
      | some doc =>
        let valid := pruneRequests doc.requests (now - (rl.window_seconds : Int))
        (rl.max_requests - valid.length, false)

/-- The pre-configured OpenAI limiter (default 100 requests per day). -/
def openai_rate_limiter : RateLimiter :=
  { max_requests := 100, window_seconds := 86400, operation_name := "openai_api" }

/-! ## Command boundary (`commands.py` user-facing commands) -/

def msgDocsEmpty : String := "Project documentation is empty. Use *update docs* to add it."

def msgProvideTemplate : String := "Please provide the bug report template content."

def msgProvideDocs : String := "Please provide project documentation content."

def msgJiraQueryNotSet : String := "Jira bug query is not set."

def msgAIUnavailable : String :=
  "Bug report generation is temporarily unavailable: OpenAI API key is not configured."

def msgTooLong : String :=
  "Your message is too long for bug report generation. " ++
  "Please shorten it to under 4000 characters."

def msgAITimeout : String :=
  "The AI service took too long to respond. " ++
  "Please try again with a shorter message or try again later."

def msgAIInternal : String :=
  "I couldn\x27t generate a bug report due to an internal error talking to the AI service. " ++
  "Please try again in a bit."

def msgAIEmpty : String :=
  "I couldn\x27t generate a bug report from this message. " ++
  "Please try rephrasing or adding more details."

/-- Rendering of a stored value into an f-string/reply (strings verbatim,
Python booleans capitalized; nested dicts abstracted). -/
def renderValue : Value → String
  | .vstr s => s
  | .vbool b => if b then "True" else "False"
  | .vdict _ => "<dict>"

/-- `commands.show_bug_report_template`. -/
def show_bug_report_template (dbFail : Option DbErr) (team_id : String)
    (channel_id : Option String) (now : Int) (st : Store) : Except Err (String × Store) :=
  match require_project dbFail team_id channel_id st with
  | .error e => .error (.val e)
  | .ok (some m) => .ok (m, st)
  | .ok none =>
    match get_settings dbFail team_id channel_id now st with
    | .error e => .ok (get_mongodb_error_message e, st)
    | .ok (settings, st1, _) =>
      match alookup settings "bug_report_template" with
      | some v => .ok (renderValue v, st1)
      | none => .ok (get_mongodb_error_message (.val "KeyError: bug_report_template"), st1)

/-- `commands.edit_bug_report_template`. -/
def edit_bug_report_template (dbFail : Option DbErr) (text team_id : String)
    (channel_id : Option String) (st : Store) : Except Err (String × Store) :=
  match require_project dbFail team_id channel_id st with
  | .error e => .error (.val e)
  | .ok (some m) => .ok (m, st)
  | .ok none =>
    let payload := pyStrip (strip_command text "edit bug template")
    if payload = "" then .ok (msgProvideTemplate, st)
    else
      match update_settings_field dbFail team_id channel_id "bug_report_template"
          (.vstr payload) st with
      | .error e => .ok (get_mongodb_error_message e, st)
      | .ok st1 => .ok ("Bug report template updated", st1)

/-- `commands.show_project_overview`. -/
def show_project_overview (dbFail : Option DbErr) (team_id : String)
    (channel_id : Option String) (now : Int) (st : Store) : Except Err (String × Store) :=
  match require_project dbFail team_id channel_id st with
  | .error e => .error (.val e)
  | .ok (some m) => .ok (m, st)
  | .ok none =>
    match get_settings dbFail team_id channel_id now st with
    | .error e => .ok (get_mongodb_error_message e, st)
    | .ok (settings, st1, _) =>
      match alookup settings "project_context" with
      | some (.vstr s) =>
        if pyStrip s = "" then .ok (msgDocsEmpty, st1) else .ok (s, st1)
      | some _ => .ok (get_mongodb_error_message (.val "AttributeError: strip"), st1)
      | none => .ok (get_mongodb_error_message (.val "KeyError: project_context"), st1)

/-- `commands.update_project_overview`. -/
def update_project_overview (dbFail : Option DbErr) (text team_id : String)
    (channel_id : Option String) (st : Store) : Except Err (String × Store) :=
  match require_project dbFail team_id channel_id st with
  | .error e => .error (.val e)
  | .ok (some m) => .ok (m, st)
  | .ok none =>
    let payload := pyStrip (strip_command text "update docs")
    if payload = "" then .ok (msgProvideDocs, st)
    else
      match update_settings_field dbFail team_id channel_id "project_context"
          (.vstr payload) st with
      | .error e => .ok (get_mongodb_error_message e, st)
      | .ok st1 => .ok ("Project overview updated.", st1)

/-- `commands.set_use_documentation`. -/
def set_use_documentation (dbFail : Option DbErr) (flag : Bool) (team_id : String)
    (channel_id : Option String) (st : Store) : Except Err (String × Store) :=
  match require_project dbFail team_id channel_id st with
  | .error e => .error (.val e)
  | .ok (some m) => .ok (m, st)
  | .ok none =>
    match update_settings_field dbFail team_id channel_id "use_project_context"
        (.vbool flag) st with
    | .error e => .ok (get_mongodb_error_message e, st)
    | .ok st1 => .ok ("Use documentation: " ++ (if flag then "True" else "False"), st1)

/-- `commands.show_jira_bug_query`. -/
def show_jira_bug_query (dbFail : Option DbErr) (team_id : String)
    (channel_id : Option String) (now : Int) (st : Store) : Except Err (String × Store) :=
  match require_project dbFail team_id channel_id st with
  | .error e => .error (.val e)
  | .ok (some m) => .ok (m, st)
  | .ok none =>
    match get_settings dbFail team_id channel_id now st with
    | .error e => .ok (get_mongodb_error_message e, st)
    | .ok (settings, st1, _) =>
      match alookup settings "jira_bug_query" with
      | some v =>
        if valueTruthy v then
          .ok ("Current Jira bug query:\n```\n" ++ renderValue v ++ "\n```", st1)
        else .ok (msgJiraQueryNotSet, st1)
      | none => .ok (msgJiraQueryNotSet, st1)

/-- Outcome of the abstracted OpenAI chat-completion call. -/
inductive AiErr
  | timeout
  | other
deriving DecidableEq, Repr

/-- The bug-report prompt assembled by `generate_bug_report`. -/
def mkBugPrompt (context_block template text : String) : String :=
  "\n    Convert the user\x27s message into a bug report.\n\n    " ++ context_block ++
  "\n\n    Use the following format exactly:\n    " ++ template ++
  "\n\n    Rules:\n    - If project context is disabled or empty, ignore it.\n" ++
  "    - Bug name must be short (3–6 words).\n" ++
  "    - Steps must be numbered and reproducible.\n" ++
  "    - Infer details only when logically obvious.\n" ++
  "    - If the user input is too short to create a meaningful bug report, " ++
  "respond with: \"Too short for bug report\".\n" ++
  "    - Output only the bug report in the template format.\n\n    User input: " ++
  text ++ "\n    "

/-- `commands.generate_bug_report`: project gate, OpenAI availability, rate
limit, length check, settings fetch (storage errors caught), then the
abstracted OpenAI call. The settings subscripts after the `try` block are
outside it, so a missing key propagates as `Err.val`. The limiter's own
store update is not observed by the reply. -/
def generate_bug_report (dbFail : Option DbErr) (aiConfigured : Bool)
    (ai : Except AiErr String) (text team_id : String) (channel_id : Option String)
    (now : Int) (st : Store) (rlSt : RLStore) : Except Err (String × Store) :=
  match require_project dbFail team_id channel_id st with
  | .error e => .error (.val e)
  | .ok (some m) => .ok (m, st)
  | .ok none =>
    if ¬ aiConfigured then .ok (msgAIUnavailable, st)
    else
      let rres := openai_rate_limiter.is_allowed (dbFail.map fun e => (0, e)) team_id now rlSt
      if rres.1.1 = false then .ok (rres.1.2.getD "", st)
      else if 4000 < text.length then .ok (msgTooLong, st)
      else
        match get_settings dbFail team_id channel_id now st with
        | .error e => .ok (get_mongodb_error_message e, st)
        | .ok (settings, st1, _) =>
          match alookup settings "use_project_context" with
          | none => .error (.val "KeyError: use_project_context")
          | some u =>
            let ctx : Except Err String :=
              if valueTruthy u then
                match alookup settings "project_context" with
                | none => .error (.val "KeyError: project_context")
                | some (.vstr pc) => .ok (if pyStrip pc ≠ "" then pc else "")
                | some _ => .error (.val "AttributeError: strip")
              else .ok ""
            match ctx with
            | .error e => .error e
            | .ok context_block =>
              match alookup settings "bug_report_template" with
              | none => .error (.val "KeyError: bug_report_template")
              | some bt =>
                let _prompt := mkBugPrompt context_block (renderValue bt) text
                match ai with
                | .error .timeout => .ok (msgAITimeout, st1)
                | .error .other => .ok (msgAIInternal, st1)
                | .ok content =>
                  let c := pyStrip content
                  if c = "" then .ok (msgAIEmpty, st1) else .ok (c, st1)

/-- The embedded user-facing commands of the settings engine. -/
inductive Cmd
  | showBugTemplate
  | editBugTemplate (text : String)
  | showProject
  | updateDocs (text : String)
  | setUseDocs (flag : Bool)
  | showJiraQuery
  | useProject (text : String)
  | listProjectsC
  | genBugReport (text : String) (aiConfigured : Bool) (ai : Except AiErr String) (rlSt : RLStore)

/-- Dispatcher over the embedded commands (mirrors `app.handle_mention`'s
per-command calls, including its channel guard for `use project`). -/
def runCmd (dbFail : Option DbErr) (cmd : Cmd) (team_id : String)
    (channel_id : Option String) (now : Int) (st : Store) : Except Err (String × Store) :=
  match cmd with
  | .showBugTemplate => show_bug_report_template dbFail team_id channel_id now st
  | .editBugTemplate text => edit_bug_report_template dbFail text team_id channel_id st
  | .showProject => show_project_overview dbFail team_id channel_id now st
  | .updateDocs text => update_project_overview dbFail text team_id channel_id st
  | .setUseDocs flag => set_use_documentation dbFail flag team_id channel_id st
  | .showJiraQuery => show_jira_bug_query dbFail team_id channel_id now st
  | .useProject text =>
    match channel_id with
    | none => .ok (msgNoChannelDetected, st)
    | some c => set_channel_project dbFail text team_id c now st
  | .listProjectsC => list_projects dbFail team_id st
  | .genBugReport text ac ai rlSt =>
    generate_bug_report dbFail ac ai text team_id channel_id now st rlSt

/-! ## Basic lemmas about the store model -/

theorem alookup_aset_self {α : Type} (l : List (String × α)) (k : String) (v : α) :
    alookup (aset l k v) k = some v := by
  induction l with
  | nil => simp [aset, alookup]
  | cons kv rest ih =>
    obtain ⟨k1, v1⟩ := kv
    by_cases h : k1 = k
    · simp [aset, alookup, h]
    · simp [aset, alookup, h, ih]

theorem alookup_aset_ne {α : Type} (l : List (String × α)) (k k' : String) (v : α)
    (h : k ≠ k') : alookup (aset l k v) k' = alookup l k' := by
  induction l with
  | nil => simp [aset, alookup, h]
  | cons kv rest ih =>
    obtain ⟨k1, v1⟩ := kv
    by_cases h1 : k1 = k
    · subst h1; simp [aset, alookup, h]
    · simp [aset, alookup, h1, ih]

theorem aset_aset {α : Type} (l : List (String × α)) (k : String) (a b : α) :
    aset (aset l k a) k b = aset l k b := by
  induction l with
  | nil => simp [aset]
  | cons kv rest ih =>
    obtain ⟨k1, v1⟩ := kv
    by_cases h : k1 = k
    · simp [aset, h]
    · simp [aset, h, ih]

theorem aset_self {α : Type} (l : List (String × α)) (k : String) (v : α)
    (h : alookup l k = some v) : aset l k v = l := by
  induction l with
  | nil => simp [alookup] at h
  | cons kv rest ih =>
    obtain ⟨k1, v1⟩ := kv
    by_cases h1 : k1 = k
    · subst h1
      simp [alookup] at h
      simp [aset, h]
    · simp [alookup, h1] at h
      simp [aset, h1, ih h]

theorem findOrg_setOrg_self (st : Store) (t : String) (o : Org) :
    findOrg (setOrg st t o) t = some o := alookup_aset_self st t o

theorem setOrg_setOrg (st : Store) (t : String) (a b : Org) :
    setOrg (setOrg st t a) t b = setOrg st t b := aset_aset st t a b

theorem setOrg_self (st : Store) (t : String) (o : Org)
    (h : findOrg st t = some o) : setOrg st t o = st := aset_self st t o h

/-! ## Lemmas about organization healing -/

/-- The organization document produced by the heal phase of `get_settings`
when the document already exists. -/
def healedOrg (now : Int) (o : Org) : Org :=
  { o with
    joined_date :=
      match o.joined_date with
      | none => some (.jstr (isoZ now))
      | some (.jstr s) => some (.jstr s)
      | some (.jdate d) => some (.jstr (isoZ d)),
    channel_projects := some (o.channel_projects.getD []) }

/-- The write tags recorded by the heal phase on an existing document. -/
def healTags (o : Org) : List WTag :=
  (match o.joined_date with | none => [WTag.jdBackfill] | some _ => []) ++
  (match o.channel_projects with | none => [WTag.cpBackfill] | some _ => []) ++
  (match o.joined_date with | some (.jdate _) => [WTag.jdMigrate] | _ => [])

/-- An organization document that needs no healing. -/
def healthyOrg (o : Org) : Prop :=
  (∃ s, o.joined_date = some (.jstr s)) ∧ o.channel_projects.isSome

theorem healOrg_missing (st : Store) (t : String) (now : Int)
    (h : findOrg st t = none) :
    healOrg t now st = (setOrg st t (freshOrg now), [WTag.orgInsert]) := by
  simp only [healOrg, h, findOrg_setOrg_self, freshOrg]

theorem healOrg_existing (st : Store) (t : String) (now : Int) (o : Org)
    (h : findOrg st t = some o) :
    healOrg t now st = (setOrg st t (healedOrg now o), healTags o) := by
  rcases o with ⟨jd, cp, pr⟩
  cases jd with
  | none =>
    cases cp with
    | none =>
      simp only [healOrg, h, findOrg_setOrg_self, setOrg_setOrg, healedOrg, healTags]
      rfl
    | some x =>
      simp only [healOrg, h, findOrg_setOrg_self, setOrg_setOrg, healedOrg, healTags]
      rfl
  | some j =>
    cases j with
    | jstr s =>
      cases cp with
      | none =>
        simp only [healOrg, h, findOrg_setOrg_self, setOrg_setOrg, healedOrg, healTags]
        rfl
      | some x =>
        simp only [healOrg, h, findOrg_setOrg_self, setOrg_setOrg, healedOrg, healTags]
        simp [setOrg_self st t _ h]
    | jdate d =>
      cases cp with
      | none =>
        simp only [healOrg, h, findOrg_setOrg_self, setOrg_setOrg, healedOrg, healTags]
        rfl
      | some x =>
        simp only [healOrg, h, findOrg_setOrg_self, setOrg_setOrg, healedOrg, healTags]
        rfl

theorem healedOrg_healthy (now : Int) (o : Org) (h : healthyOrg o) :
    healedOrg now o = o ∧ healTags o = [] := by
  obtain ⟨⟨s, hjd⟩, hcp⟩ := h
  rcases o with ⟨jd, cp, pr⟩
  cases cp with
  | none => simp at hcp
  | some x =>
    simp only at hjd
    subst hjd
    simp [healedOrg, healTags]

theorem healOrg_healthy (st : Store) (t : String) (now : Int) (o : Org)
    (ho : findOrg st t = some o) (h : healthyOrg o) :
    healOrg t now st = (st, []) := by
  rw [healOrg_existing st t now o ho, (healedOrg_healthy now o h).1,
    (healedOrg_healthy now o h).2, setOrg_self st t o ho]

/-! ## Path lemmas for the settings resolver -/

/-- A tenant id in canonical (already-sanitized) form. -/
abbrev validTeam (t : String) : Prop := sanitizeIdCore t "team_id" = .ok t

/-- A channel id in canonical (already-sanitized) form. -/
abbrev validChan (c : String) : Prop := sanitizeIdCore c "channel_id" = .ok c

theorem healedOrg_channel_projects (now : Int) (o : Org) :
    (healedOrg now o).channel_projects = some (o.channel_projects.getD []) := rfl

theorem healedOrg_projects (now : Int) (o : Org) :
    (healedOrg now o).projects = o.projects := rfl

theorem get_settings_nochannel (t : String) (now : Int) (st : Store) (ht : validTeam t) :
    get_settings none t none now st = .ok ([], (healOrg t now st).1, (healOrg t now st).2) := by
  simp only [validTeam] at ht
  simp only [get_settings, ht]
  cases h : findOrg (healOrg t now st).1 t <;> simp

theorem get_settings_fresh (t c : String) (now : Int) (st : Store)
    (ht : validTeam t) (hc : validChan c) (ho : findOrg st t = none) :
    get_settings none t (some c) now st =
      .ok (PROJECT_DEFAULTS, setOrg st t (freshOrg now), [WTag.orgInsert]) := by
  simp only [validTeam] at ht
  simp only [validChan] at hc
  simp only [get_settings, ht, hc, healOrg_missing st t now ho, findOrg_setOrg_self]
  simp [Except.map, freshOrg, resolveBindingVal, alookup]

theorem get_settings_unbound (t c : String) (now : Int) (st : Store) (o : Org)
    (ht : validTeam t) (hc : validChan c) (ho : findOrg st t = some o)
    (hb : match resolveBindingVal (alookup (o.channel_projects.getD []) c) with
          | none => True
          | some v => valueTruthy v = false) :
    get_settings none t (some c) now st =
      .ok (PROJECT_DEFAULTS, setOrg st t (healedOrg now o), healTags o) := by
  simp only [validTeam] at ht
  simp only [validChan] at hc
  simp only [get_settings, ht, hc, healOrg_existing st t now o ho, findOrg_setOrg_self,
    healedOrg_channel_projects, Option.getD_some]
  cases hres : resolveBindingVal (alookup (o.channel_projects.getD []) c) with
  | none => simp [Except.map, hres]
  | some v =>
    rw [hres] at hb
    simp only at hb
    simp [Except.map, hres, hb]

theorem get_settings_invalidname (t c : String) (now : Int) (st : Store) (o : Org)
    (pv : Value) (e : String)
    (ht : validTeam t) (hc : validChan c) (ho : findOrg st t = some o)
    (hpv : resolveBindingVal (alookup (o.channel_projects.getD []) c) = some pv)
    (htr : valueTruthy pv = true)
    (hsan : sanitizeProjectNameVal pv = .error e) :
    get_settings none t (some c) now st =
      .ok (PROJECT_DEFAULTS, setOrg st t (healedOrg now o), healTags o) := by
  simp only [validTeam] at ht
  simp only [validChan] at hc
  simp only [get_settings, ht, hc, Except.map, healOrg_existing st t now o ho,
    findOrg_setOrg_self, healedOrg_channel_projects, Option.getD_some, hpv, hsan]
  rw [if_neg (by simp [htr])]

theorem get_settings_bound (t c : String) (now : Int) (st : Store) (o : Org)
    (pv : Value) (p : String)
    (ht : validTeam t) (hc : validChan c) (ho : findOrg st t = some o)
    (hpv : resolveBindingVal (alookup (o.channel_projects.getD []) c) = some pv)
    (htr : valueTruthy pv = true)
    (hsan : sanitizeProjectNameVal pv = .ok p) :
    get_settings none t (some c) now st =
      (if pyDocEq (dictMerge PROJECT_DEFAULTS ((alookup (o.projects.getD []) p).getD []))
            ((alookup (o.projects.getD []) p).getD []) then
        .ok (dictMerge PROJECT_DEFAULTS ((alookup (o.projects.getD []) p).getD []),
             setOrg st t (healedOrg now o), healTags o)
      else
        .ok (dictMerge PROJECT_DEFAULTS ((alookup (o.projects.getD []) p).getD []),
             setOrg st t { healedOrg now o with
               projects := some (aset (o.projects.getD []) p
                 (dictMerge PROJECT_DEFAULTS ((alookup (o.projects.getD []) p).getD []))) },
             healTags o ++ [WTag.mergePersist])) := by
  simp only [validTeam] at ht
  simp only [validChan] at hc
  simp only [get_settings, ht, hc, Except.map, healOrg_existing st t now o ho,
    findOrg_setOrg_self, healedOrg_channel_projects, Option.getD_some, hpv, hsan,
    healedOrg_projects]
  rw [if_neg (by simp [htr])]
  split <;> simp [setOrg_setOrg]

/-! ## Lemmas about the defaults merge -/

theorem alookup_append {α : Type} (a b : List (String × α)) (k : String) :
    alookup (a ++ b) k =
      match alookup a k with
      | some v => some v
      | none => alookup b k := by
  induction a with
  | nil => simp [alookup]
  | cons kv rest ih =>
    obtain ⟨k1, v1⟩ := kv
    by_cases h : k1 = k
    · simp [alookup, h]
    · simp [alookup, h, ih]

theorem alookup_map_merge (d s : Doc) (k : String) :
    alookup (d.map fun kv => (kv.1, (alookup s kv.1).getD kv.2)) k =
      (alookup d k).map fun v => (alookup s k).getD v := by
  induction d with
  | nil => simp [alookup]
  | cons kv rest ih =>
    obtain ⟨k1, v1⟩ := kv
    by_cases h : k1 = k
    · subst h; simp [alookup]
    · simp [alookup, h, ih]

theorem alookup_filter (s : Doc) (p : String → Bool) (k : String) :
    alookup (s.filter fun kv => p kv.1) k = if p k then alookup s k else none := by
  induction s with
  | nil => simp [alookup]
  | cons kv rest ih =>
    obtain ⟨k1, v1⟩ := kv
    by_cases h : k1 = k
    · subst h
      by_cases hp : p k1
      · simp [List.filter_cons, hp, alookup]
      · simp [List.filter_cons, hp, alookup, ih]
    · by_cases hp : p k1
      · simp [List.filter_cons, hp, alookup, h, ih]
      · simp [List.filter_cons, hp, alookup, h, ih]

theorem alookup_dictMerge (d s : Doc) (k : String) :
    alookup (dictMerge d s) k =
      match alookup s k with
      | some w => some w
      | none => alookup d k := by
  simp only [dictMerge, alookup_append, alookup_map_merge,
    alookup_filter s (fun k0 => (alookup d k0).isNone) k]
  cases hd : alookup d k <;> cases hs : alookup s k <;> simp [hd, hs]

theorem alookup_isSome_of_mem {α : Type} (l : List (String × α)) (kv : String × α)
    (h : kv ∈ l) : (alookup l kv.1).isSome := by
  induction l with
  | nil => simp at h
  | cons hd rest ih =>
    obtain ⟨k1, v1⟩ := hd
    rcases List.mem_cons.mp h with h1 | h1
    · subst h1; simp [alookup]
    · by_cases hk : k1 = kv.1
      · simp [alookup, hk]
      · simp [alookup, hk, ih h1]

theorem filter_absent_of_mapped_keys (d : Doc) (f : String → Value → Value) :
    (d.map fun kv => (kv.1, f kv.1 kv.2)).filter (fun kv => (alookup d kv.1).isNone) = [] := by
  rw [List.filter_eq_nil_iff]
  intro a ha
  obtain ⟨kv, hkv, rfl⟩ := List.mem_map.mp ha
  have := alookup_isSome_of_mem d kv hkv
  simp only [Option.isNone]
  intro hcontra
  cases hh : alookup d kv.1 with
  | none => rw [hh] at this; simp at this
  | some v => rw [hh] at hcontra; simp at hcontra

theorem dictMerge_defaults_idem (s : Doc) :
    dictMerge PROJECT_DEFAULTS (dictMerge PROJECT_DEFAULTS s) = dictMerge PROJECT_DEFAULTS s := by
  have key : ∀ (k : String) (d0 : Value), alookup PROJECT_DEFAULTS k = some d0 →
      (alookup (dictMerge PROJECT_DEFAULTS s) k).getD d0 = (alookup s k).getD d0 := by
    intro k d0 hk
    rw [alookup_dictMerge]
    cases hs : alookup s k <;> simp [hk]
  have part2 : (dictMerge PROJECT_DEFAULTS s).filter
      (fun kv => (alookup PROJECT_DEFAULTS kv.1).isNone) =
      s.filter (fun kv => (alookup PROJECT_DEFAULTS kv.1).isNone) := by
    show ((PROJECT_DEFAULTS.map fun kv => (kv.1, (alookup s kv.1).getD kv.2)) ++
        s.filter (fun kv => (alookup PROJECT_DEFAULTS kv.1).isNone)).filter
        (fun kv => (alookup PROJECT_DEFAULTS kv.1).isNone) = _
    rw [List.filter_append,
      filter_absent_of_mapped_keys PROJECT_DEFAULTS (fun k v => (alookup s k).getD v),
      List.filter_filter]
    simp
  have part1 : (PROJECT_DEFAULTS.map fun kv =>
        (kv.1, (alookup (dictMerge PROJECT_DEFAULTS s) kv.1).getD kv.2)) =
      PROJECT_DEFAULTS.map fun kv => (kv.1, (alookup s kv.1).getD kv.2) := by
    show [("use_project_context",
            (alookup (dictMerge PROJECT_DEFAULTS s) "use_project_context").getD (Value.vbool false)),
          ("project_context",
            (alookup (dictMerge PROJECT_DEFAULTS s) "project_context").getD (Value.vstr "")),
          ("bug_report_template",
            (alookup (dictMerge PROJECT_DEFAULTS s) "bug_report_template").getD
              (Value.vstr "\nBug name:\nSteps:\nActual result:\nExpected:\n"))] = _
    rw [key "use_project_context" (Value.vbool false) rfl,
      key "project_context" (Value.vstr "") rfl,
      key "bug_report_template" (Value.vstr "\nBug name:\nSteps:\nActual result:\nExpected:\n") rfl]
    rfl
  show (PROJECT_DEFAULTS.map fun kv =>
        (kv.1, (alookup (dictMerge PROJECT_DEFAULTS s) kv.1).getD kv.2)) ++
      (dictMerge PROJECT_DEFAULTS s).filter
        (fun kv => (alookup PROJECT_DEFAULTS kv.1).isNone) =
      dictMerge PROJECT_DEFAULTS s
  rw [part1, part2]
  rfl

/-! ## Idempotence of stripping and of the sanitizers -/

theorem pyStripL_idem (l : List Char) : pyStripL (pyStripL l) = pyStripL l := by
  have key : List.dropWhile Char.isWhitespace (pyStripL l) = pyStripL l := by
    obtain ⟨t, ht⟩ := List.rdropWhile_prefix Char.isWhitespace
      (List.dropWhile Char.isWhitespace l)
    cases hR : pyStripL l with
    | nil => simp
    | cons r0 rs =>
      have hR2 : List.rdropWhile Char.isWhitespace
          (List.dropWhile Char.isWhitespace l) = r0 :: rs := hR
      have hD : List.dropWhile Char.isWhitespace l = r0 :: (rs ++ t) := by
        rw [← ht, hR2]; simp
      have h0 : 0 < (List.dropWhile Char.isWhitespace l).length := by rw [hD]; simp
      have hnot := List.dropWhile_get_zero_not Char.isWhitespace l h0
      have hget := List.get_of_eq hD ⟨0, h0⟩
      rw [hget] at hnot
      simp only [List.get] at hnot
      simp [List.dropWhile_cons, hnot]
  show List.rdropWhile Char.isWhitespace (List.dropWhile Char.isWhitespace (pyStripL l)) =
    pyStripL l
  rw [key]
  exact List.rdropWhile_idempotent _ _

theorem pyStrip_idem (s : String) : pyStrip (pyStrip s) = pyStrip s := by
  show String.mk (pyStripL (pyStripL s.data)) = String.mk (pyStripL s.data)
  rw [pyStripL_idem]

theorem sanitize_project_name_idem (x p : String)
    (h : sanitize_project_name x = .ok p) : sanitize_project_name p = .ok p := by
  simp only [sanitize_project_name] at h
  split_ifs at h with hx h1 h2 h3 h4 h5 h6
  injection h with h
  subst h
  simp only [sanitize_project_name, pyStrip_idem]
  simp at h2 h3 h4 h5
  simp [h1, h2, h3, h4, h5.1, h5.2, h6]

/-! ## C1 -/

/-- C1: for every valid tenant id and every channel bound to a valid project
name, `get_settings` returns the merge of the stored project record over the
hard-coded defaults: stored values win, absent keys are filled from the
defaults, and every default key is present in the returned record (the
record is never partial). -/
theorem C1_settings_complete_merge
    (t c : String) (now : Int) (st : Store) (o : Org) (pv : Value) (p : String) (ps : Doc)
    (ht : validTeam t) (hc : validChan c) (ho : findOrg st t = some o)
    (hpv : resolveBindingVal (alookup (o.channel_projects.getD []) c) = some pv)
    (htr : valueTruthy pv = true)
    (hsan : sanitizeProjectNameVal pv = .ok p)
    (hps : ps = (alookup (o.projects.getD []) p).getD []) :
    ∃ st' ws,
      get_settings none t (some c) now st = .ok (dictMerge PROJECT_DEFAULTS ps, st', ws) ∧
      (∀ k v, alookup ps k = some v → alookup (dictMerge PROJECT_DEFAULTS ps) k = some v) ∧
      (∀ k, alookup ps k = none →
        alookup (dictMerge PROJECT_DEFAULTS ps) k = alookup PROJECT_DEFAULTS k) ∧
      (∀ kv ∈ PROJECT_DEFAULTS, (alookup (dictMerge PROJECT_DEFAULTS ps) kv.1).isSome) := by
  subst hps
  rw [get_settings_bound t c now st o pv p ht hc ho hpv htr hsan]
  have hwin : ∀ k v, alookup ((alookup (o.projects.getD []) p).getD []) k = some v →
      alookup (dictMerge PROJECT_DEFAULTS ((alookup (o.projects.getD []) p).getD [])) k =
        some v := by
    intro k v hk
    rw [alookup_dictMerge, hk]
  have hfill : ∀ k, alookup ((alookup (o.projects.getD []) p).getD []) k = none →
      alookup (dictMerge PROJECT_DEFAULTS ((alookup (o.projects.getD []) p).getD [])) k =
        alookup PROJECT_DEFAULTS k := by
    intro k hk
    rw [alookup_dictMerge, hk]
  have hkeys : ∀ kv ∈ PROJECT_DEFAULTS,
      (alookup (dictMerge PROJECT_DEFAULTS ((alookup (o.projects.getD []) p).getD []))
        kv.1).isSome := by
    intro kv hkv
    rw [alookup_dictMerge]
    cases hs : alookup ((alookup (o.projects.getD []) p).getD []) kv.1 with
    | some w => simp
    | none => simpa using alookup_isSome_of_mem PROJECT_DEFAULTS kv hkv
  by_cases hde : pyDocEq
      (dictMerge PROJECT_DEFAULTS ((alookup (o.projects.getD []) p).getD []))
      ((alookup (o.projects.getD []) p).getD []) = true
  · rw [if_pos hde]
    exact ⟨_, _, rfl, hwin, hfill, hkeys⟩
  · rw [if_neg hde]
    exact ⟨_, _, rfl, hwin, hfill, hkeys⟩

/-- Concrete organization used by the C1 witness. -/
def c1Org : Org :=
  { joined_date := some (.jstr "0Z"),
    channel_projects := some [("C1", .cstr "proj")],
    projects := some [("proj", [("project_context", .vstr "docs")])] }

theorem C1_settings_complete_merge_witness :
    validTeam "T1" ∧ validChan "C1" ∧
    resolveBindingVal (alookup (c1Org.channel_projects.getD []) "C1") = some (.vstr "proj") ∧
    sanitizeProjectNameVal (.vstr "proj") = .ok "proj" ∧
    (∃ st' ws,
      get_settings none "T1" (some "C1") 0 [("T1", c1Org)] =
        .ok (dictMerge PROJECT_DEFAULTS [("project_context", .vstr "docs")], st', ws) ∧
      (∀ k v, alookup [("project_context", Value.vstr "docs")] k = some v →
        alookup (dictMerge PROJECT_DEFAULTS [("project_context", .vstr "docs")]) k = some v) ∧
      (∀ k, alookup [("project_context", Value.vstr "docs")] k = none →
        alookup (dictMerge PROJECT_DEFAULTS [("project_context", .vstr "docs")]) k =
          alookup PROJECT_DEFAULTS k) ∧
      (∀ kv ∈ PROJECT_DEFAULTS,
        (alookup (dictMerge PROJECT_DEFAULTS [("project_context", .vstr "docs")])
          kv.1).isSome)) :=
  ⟨by rfl, by rfl, by rfl, by rfl,
    C1_settings_complete_merge "T1" "C1" 0 [("T1", c1Org)] c1Org (.vstr "proj") "proj"
      [("project_context", .vstr "docs")] (by rfl) (by rfl) (by rfl) (by rfl) (by rfl)
      (by rfl) (by rfl)⟩

/-! ## C4 -/

/-- C4 (counterexample): resolving an unbound channel for a tenant whose
organization record does not exist yet returns the defaults but DOES mutate
storage (the lazy `$setOnInsert` upsert inserts the organization record), so
"performs no storage mutation during that call" is false as stated. -/
theorem C4_counterexample :
    get_settings none "T1" (some "C1") 0 [] =
      .ok (PROJECT_DEFAULTS, [("T1", freshOrg 0)], [WTag.orgInsert]) ∧
    ([("T1", freshOrg 0)] : Store) ≠ ([] : Store) := ⟨by rfl, by decide⟩

/-- C4 (amended): for a valid tenant whose organization record already
exists and is well-formed (string `joined_date`, `channel_projects`
present), resolving an unbound channel returns exactly the hard-coded
project defaults (every default key present), leaves the store unchanged
and performs no storage write at all. -/
theorem C4_amended_unbound_returns_defaults
    (t c : String) (now : Int) (st : Store) (o : Org)
    (ht : validTeam t) (hc : validChan c) (ho : findOrg st t = some o)
    (hh : healthyOrg o)
    (hb : match resolveBindingVal (alookup (o.channel_projects.getD []) c) with
          | none => True
          | some v => valueTruthy v = false) :
    get_settings none t (some c) now st = .ok (PROJECT_DEFAULTS, st, []) ∧
    (∀ kv ∈ PROJECT_DEFAULTS, (alookup PROJECT_DEFAULTS kv.1).isSome) := by
  constructor
  · rw [get_settings_unbound t c now st o ht hc ho hb,
      (healedOrg_healthy now o hh).1, (healedOrg_healthy now o hh).2, setOrg_self st t o ho]
  · intro kv hkv
    exact alookup_isSome_of_mem PROJECT_DEFAULTS kv hkv

/-- Concrete healthy organization with an unbound channel (C4 witness). -/
def c4Org : Org :=
  { joined_date := some (.jstr "0Z"), channel_projects := some [], projects := some [] }

theorem C4_amended_unbound_returns_defaults_witness :
    validTeam "T1" ∧ validChan "C1" ∧ healthyOrg c4Org ∧
    (get_settings none "T1" (some "C1") 0 [("T1", c4Org)] =
        .ok (PROJECT_DEFAULTS, [("T1", c4Org)], []) ∧
      (∀ kv ∈ PROJECT_DEFAULTS, (alookup PROJECT_DEFAULTS kv.1).isSome)) :=
  ⟨by rfl, by rfl, ⟨⟨"0Z", rfl⟩, rfl⟩,
    C4_amended_unbound_returns_defaults "T1" "C1" 0 [("T1", c4Org)] c4Org
      (by rfl) (by rfl) (by rfl) ⟨⟨"0Z", rfl⟩, rfl⟩ (by trivial)⟩

/-! ## C3 -/

/-- The writes of a resolution call other than the lazy organization
insert. -/
def correctiveWrites (ws : List WTag) : List WTag :=
  ws.filter fun w => w ≠ WTag.orgInsert

/-- The six possible shapes of the heal-phase write list. -/
theorem healTags_cases (o : Org) :
    healTags o = [] ∨ healTags o = [WTag.jdBackfill] ∨ healTags o = [WTag.cpBackfill] ∨
    healTags o = [WTag.jdMigrate] ∨ healTags o = [WTag.jdBackfill, WTag.cpBackfill] ∨
    healTags o = [WTag.cpBackfill, WTag.jdMigrate] := by
  rcases o with ⟨jd, cp, pr⟩
  cases jd with
  | none => cases cp <;> simp [healTags]
  | some j => cases j <;> cases cp <;> simp [healTags]

/-- Shape of the write list of any resolution call with valid identifiers:
either the fresh-organization insert, or the heal-phase writes of the
existing organization, optionally followed by one merge persist. -/
theorem get_settings_ws (t : String) (ch : Option String) (now : Int) (st : Store)
    (r : Doc) (st' : Store) (ws : List WTag)
    (ht : validTeam t)
    (hc : match ch with | none => True | some c => validChan c)
    (h : get_settings none t ch now st = .ok (r, st', ws)) :
    ws = [WTag.orgInsert] ∨
    (∃ o, findOrg st t = some o ∧
      (ws = healTags o ∨ ws = healTags o ++ [WTag.mergePersist])) := by
  cases ch with
  | none =>
    rw [get_settings_nochannel t now st ht] at h
    cases ho : findOrg st t with
    | none =>
      left
      rw [healOrg_missing st t now ho] at h
      simp only [Except.ok.injEq, Prod.mk.injEq] at h
      exact h.2.2.symm
    | some o =>
      right
      refine ⟨o, rfl, Or.inl ?_⟩
      rw [healOrg_existing st t now o ho] at h
      simp only [Except.ok.injEq, Prod.mk.injEq] at h
      exact h.2.2.symm
  | some c =>
    cases ho : findOrg st t with
    | none =>
      left
      rw [get_settings_fresh t c now st ht hc ho] at h
      simp only [Except.ok.injEq, Prod.mk.injEq] at h
      exact h.2.2.symm
    | some o =>
      right
      refine ⟨o, rfl, ?_⟩
      cases hres : resolveBindingVal (alookup (o.channel_projects.getD []) c) with
      | none =>
        rw [get_settings_unbound t c now st o ht hc ho (by rw [hres]; trivial)] at h
        simp only [Except.ok.injEq, Prod.mk.injEq] at h
        exact Or.inl h.2.2.symm
      | some pv =>
        cases htr : valueTruthy pv with
        | false =>
          rw [get_settings_unbound t c now st o ht hc ho (by rw [hres]; exact htr)] at h
          simp only [Except.ok.injEq, Prod.mk.injEq] at h
          exact Or.inl h.2.2.symm
        | true =>
          cases hsan : sanitizeProjectNameVal pv with
          | error e =>
            rw [get_settings_invalidname t c now st o pv e ht hc ho hres htr hsan] at h
            simp only [Except.ok.injEq, Prod.mk.injEq] at h
            exact Or.inl h.2.2.symm
          | ok p =>
            rw [get_settings_bound t c now st o pv p ht hc ho hres htr hsan] at h
            by_cases hde : pyDocEq
                (dictMerge PROJECT_DEFAULTS ((alookup (o.projects.getD []) p).getD []))
                ((alookup (o.projects.getD []) p).getD []) = true
            · rw [if_pos hde] at h
              simp only [Except.ok.injEq, Prod.mk.injEq] at h
              exact Or.inl h.2.2.symm
            · rw [if_neg hde] at h
              simp only [Except.ok.injEq, Prod.mk.injEq] at h
              exact Or.inr h.2.2.symm

/-- C3 (counterexample): on an organization document missing `joined_date`
and bound to a project with an incomplete settings record, one resolution
call performs TWO corrective writes beyond the insert-if-absent (the
`joined_date` backfill and the merge persist), so "no resolution call
issues more than one corrective update" is false as stated. -/
theorem C3_counterexample :
    get_settings none "T1" (some "C1") 5
      [("T1", { joined_date := none,
                channel_projects := some [("C1", .cstr "p")],
                projects := some [("p", [])] })] =
      .ok (PROJECT_DEFAULTS,
        [("T1", { joined_date := some (.jstr "5Z"),
                  channel_projects := some [("C1", CVal.cstr "p")],
                  projects := some [("p", PROJECT_DEFAULTS)] })],
        [WTag.jdBackfill, WTag.mergePersist]) ∧
    (correctiveWrites [WTag.jdBackfill, WTag.mergePersist]).length = 2 := ⟨by rfl, by rfl⟩

/-- C3 (amended): a resolution call issues each category of corrective
write at most once (merge persist, `joined_date` backfill,
`channel_projects` backfill, datetime migration), and when the organization
record is already well-formed it issues at most one corrective write in
total (the merge persist). -/
theorem C3_amended_at_most_one_corrective_write_per_category
    (t : String) (ch : Option String) (now : Int) (st : Store)
    (r : Doc) (st' : Store) (ws : List WTag)
    (ht : validTeam t)
    (hc : match ch with | none => True | some c => validChan c)
    (h : get_settings none t ch now st = .ok (r, st', ws)) :
    List.count WTag.mergePersist ws ≤ 1 ∧
    List.count WTag.jdBackfill ws ≤ 1 ∧
    List.count WTag.cpBackfill ws ≤ 1 ∧
    List.count WTag.jdMigrate ws ≤ 1 ∧
    (∀ o, findOrg st t = some o → healthyOrg o → (correctiveWrites ws).length ≤ 1) := by
  rcases get_settings_ws t ch now st r st' ws ht hc h with hws | ⟨o, ho, hws | hws⟩
  · subst hws
    refine ⟨by decide, by decide, by decide, by decide, ?_⟩
    intro o' ho' hh'
    decide
  · subst hws
    have hcounts := healTags_cases o
    constructor
    · rcases hcounts with he | he | he | he | he | he <;> rw [he] <;> decide
    constructor
    · rcases hcounts with he | he | he | he | he | he <;> rw [he] <;> decide
    constructor
    · rcases hcounts with he | he | he | he | he | he <;> rw [he] <;> decide
    constructor
    · rcases hcounts with he | he | he | he | he | he <;> rw [he] <;> decide
    · intro o' ho' hh'
      have : o' = o := by
        rw [ho] at ho'
        exact ((Option.some.injEq o o').mp ho').symm
      subst this
      rw [(healedOrg_healthy 0 o' hh').2]
      decide
  · subst hws
    have hcounts := healTags_cases o
    refine ⟨?_, ?_, ?_, ?_, ?_⟩
    · rcases hcounts with he | he | he | he | he | he <;> rw [he] <;> decide
    · rcases hcounts with he | he | he | he | he | he <;> rw [he] <;> decide
    · rcases hcounts with he | he | he | he | he | he <;> rw [he] <;> decide
    · rcases hcounts with he | he | he | he | he | he <;> rw [he] <;> decide
    · intro o' ho' hh'
      have : o' = o := by
        rw [ho] at ho'
        exact ((Option.some.injEq o o').mp ho').symm
      subst this
      rw [(healedOrg_healthy 0 o' hh').2]
      decide

theorem C3_amended_witness :
    validTeam "T1" ∧
    (∃ r st' ws, get_settings none "T1" (some "C1") 5
        [("T1", { joined_date := none,
                  channel_projects := some [("C1", .cstr "p")],
                  projects := some [("p", [])] })] = .ok (r, st', ws) ∧
      List.count WTag.mergePersist ws ≤ 1 ∧
      List.count WTag.jdBackfill ws ≤ 1 ∧
      List.count WTag.cpBackfill ws ≤ 1 ∧
      List.count WTag.jdMigrate ws ≤ 1) := by
  refine ⟨by rfl, PROJECT_DEFAULTS,
    [("T1", { joined_date := some (.jstr "5Z"),
              channel_projects := some [("C1", CVal.cstr "p")],
              projects := some [("p", PROJECT_DEFAULTS)] })],
    [WTag.jdBackfill, WTag.mergePersist], by rfl, ?_⟩
  have := C3_amended_at_most_one_corrective_write_per_category "T1" (some "C1") 5
    [("T1", { joined_date := none,
              channel_projects := some [("C1", .cstr "p")],
              projects := some [("p", [])] })]
    PROJECT_DEFAULTS
    [("T1", { joined_date := some (.jstr "5Z"),
              channel_projects := some [("C1", CVal.cstr "p")],
              projects := some [("p", PROJECT_DEFAULTS)] })]
    [WTag.jdBackfill, WTag.mergePersist] (by rfl) (by rfl) (by rfl)
  exact ⟨this.1, this.2.1, this.2.2.1, this.2.2.2.1⟩

/-! ## C2 -/

/-- C2: calling the settings resolver twice in a row with no intervening
store mutation returns an identical settings record: the second call (on
the store left by the first) yields exactly the first call's record. -/
theorem C2_resolver_idempotent
    (t : String) (ch : Option String) (now1 now2 : Int) (st : Store)
    (r1 : Doc) (st1 : Store) (w1 : List WTag)
    (ht : validTeam t)
    (hc : match ch with | none => True | some c => validChan c)
    (h1 : get_settings none t ch now1 st = .ok (r1, st1, w1)) :
    ∃ st2 w2, get_settings none t ch now2 st1 = .ok (r1, st2, w2) := by
  cases ch with
  | none =>
    rw [get_settings_nochannel t now1 st ht] at h1
    simp only [Except.ok.injEq, Prod.mk.injEq] at h1
    obtain ⟨hr, hst, hw⟩ := h1
    subst hr hst
    exact ⟨_, _, get_settings_nochannel t now2 _ ht⟩
  | some c =>
    cases ho : findOrg st t with
    | none =>
      rw [get_settings_fresh t c now1 st ht hc ho] at h1
      simp only [Except.ok.injEq, Prod.mk.injEq] at h1
      obtain ⟨hr, hst, hw⟩ := h1
      subst hr hst
      exact ⟨_, _, get_settings_unbound t c now2 _ (freshOrg now1) ht hc
        (findOrg_setOrg_self st t (freshOrg now1)) (by trivial)⟩
    | some o =>
      cases hres : resolveBindingVal (alookup (o.channel_projects.getD []) c) with
      | none =>
        rw [get_settings_unbound t c now1 st o ht hc ho (by rw [hres]; trivial)] at h1
        simp only [Except.ok.injEq, Prod.mk.injEq] at h1
        obtain ⟨hr, hst, hw⟩ := h1
        subst hr hst
        exact ⟨_, _, get_settings_unbound t c now2 _ (healedOrg now1 o) ht hc
          (findOrg_setOrg_self st t (healedOrg now1 o))
          (by rw [healedOrg_channel_projects, Option.getD_some, hres]; trivial)⟩
      | some pv =>
        cases htr : valueTruthy pv with
        | false =>
          rw [get_settings_unbound t c now1 st o ht hc ho (by rw [hres]; exact htr)] at h1
          simp only [Except.ok.injEq, Prod.mk.injEq] at h1
          obtain ⟨hr, hst, hw⟩ := h1
          subst hr hst
          exact ⟨_, _, get_settings_unbound t c now2 _ (healedOrg now1 o) ht hc
            (findOrg_setOrg_self st t (healedOrg now1 o))
            (by rw [healedOrg_channel_projects, Option.getD_some, hres]; exact htr)⟩
        | true =>
          cases hsan : sanitizeProjectNameVal pv with
          | error e =>
            rw [get_settings_invalidname t c now1 st o pv e ht hc ho hres htr hsan] at h1
            simp only [Except.ok.injEq, Prod.mk.injEq] at h1
            obtain ⟨hr, hst, hw⟩ := h1
            subst hr hst
            exact ⟨_, _, get_settings_invalidname t c now2 _ (healedOrg now1 o) pv e ht hc
              (findOrg_setOrg_self st t (healedOrg now1 o))
              (by rw [healedOrg_channel_projects, Option.getD_some]; exact hres) htr hsan⟩
          | ok p =>
            rw [get_settings_bound t c now1 st o pv p ht hc ho hres htr hsan] at h1
            by_cases hde : pyDocEq
                (dictMerge PROJECT_DEFAULTS ((alookup (o.projects.getD []) p).getD []))
                ((alookup (o.projects.getD []) p).getD []) = true
            · rw [if_pos hde] at h1
              simp only [Except.ok.injEq, Prod.mk.injEq] at h1
              obtain ⟨hr, hst, hw⟩ := h1
              subst hr hst
              have h2 := get_settings_bound t c now2 _ (healedOrg now1 o) pv p ht hc
                (findOrg_setOrg_self st t (healedOrg now1 o))
                (by rw [healedOrg_channel_projects, Option.getD_some]; exact hres) htr hsan
              rw [healedOrg_projects] at h2
              by_cases hde2 : pyDocEq
                  (dictMerge PROJECT_DEFAULTS ((alookup (o.projects.getD []) p).getD []))
                  ((alookup (o.projects.getD []) p).getD []) = true
              · rw [if_pos hde2] at h2
                exact ⟨_, _, h2⟩
              · rw [if_neg hde2] at h2
                exact ⟨_, _, h2⟩
            · rw [if_neg hde] at h1
              simp only [Except.ok.injEq, Prod.mk.injEq] at h1
              obtain ⟨hr, hst, hw⟩ := h1
              subst hr hst
              have h2 := get_settings_bound t c now2 _
                { healedOrg now1 o with
                  projects := some (aset (o.projects.getD []) p
                    (dictMerge PROJECT_DEFAULTS ((alookup (o.projects.getD []) p).getD []))) }
                pv p ht hc (findOrg_setOrg_self st t _)
                (by
                  show resolveBindingVal
                    (alookup ((healedOrg now1 o).channel_projects.getD []) c) = some pv
                  rw [healedOrg_channel_projects, Option.getD_some]
                  exact hres)
                htr hsan
              simp only [Option.getD_some, alookup_aset_self] at h2
              rw [dictMerge_defaults_idem] at h2
              by_cases hde2 : pyDocEq
                  (dictMerge PROJECT_DEFAULTS ((alookup (o.projects.getD []) p).getD []))
                  (dictMerge PROJECT_DEFAULTS ((alookup (o.projects.getD []) p).getD [])) = true
              · rw [if_pos hde2] at h2
                exact ⟨_, _, h2⟩
              · rw [if_neg hde2] at h2
                exact ⟨_, _, h2⟩

theorem C2_resolver_idempotent_witness :
    validTeam "T1" ∧
    get_settings none "T1" (some "C1") 5
      [("T1", { joined_date := none,
                channel_projects := some [("C1", .cstr "p")],
                projects := some [("p", [])] })] =
      .ok (PROJECT_DEFAULTS,
        [("T1", { joined_date := some (.jstr "5Z"),
                  channel_projects := some [("C1", CVal.cstr "p")],
                  projects := some [("p", PROJECT_DEFAULTS)] })],
        [WTag.jdBackfill, WTag.mergePersist]) ∧
    (∃ st2 w2, get_settings none "T1" (some "C1") 9
        [("T1", { joined_date := some (.jstr "5Z"),
                  channel_projects := some [("C1", CVal.cstr "p")],
                  projects := some [("p", PROJECT_DEFAULTS)] })] =
      .ok (PROJECT_DEFAULTS, st2, w2)) :=
  ⟨by rfl, by rfl,
    C2_resolver_idempotent "T1" (some "C1") 5 9
      [("T1", { joined_date := none,
                channel_projects := some [("C1", .cstr "p")],
                projects := some [("p", [])] })]
      PROJECT_DEFAULTS
      [("T1", { joined_date := some (.jstr "5Z"),
                channel_projects := some [("C1", CVal.cstr "p")],
                projects := some [("p", PROJECT_DEFAULTS)] })]
      [WTag.jdBackfill, WTag.mergePersist] (by rfl) (by rfl) (by rfl)⟩

/-! ## C5 -/

theorem mem_dropWhile_iff {α : Type} (p : α → Bool) (l : List α) (x : α)
    (hx : p x = false) : x ∈ l.dropWhile p ↔ x ∈ l := by
  constructor
  · intro h
    exact (List.dropWhile_suffix p).sublist.mem h
  · intro h
    rw [← List.takeWhile_append_dropWhile p l] at h
    rcases List.mem_append.mp h with h1 | h1
    · have := List.mem_takeWhile_imp h1
      rw [hx] at this
      cases this
    · exact h1

theorem mem_rdropWhile_iff {α : Type} (p : α → Bool) (l : List α) (x : α)
    (hx : p x = false) : x ∈ l.rdropWhile p ↔ x ∈ l := by
  show x ∈ (l.reverse.dropWhile p).reverse ↔ x ∈ l
  rw [List.mem_reverse, mem_dropWhile_iff p l.reverse x hx, List.mem_reverse]

theorem mem_pyStripL_iff (x : Char) (l : List Char)
    (hx : Char.isWhitespace x = false) : x ∈ pyStripL l ↔ x ∈ l := by
  show x ∈ List.rdropWhile Char.isWhitespace (List.dropWhile Char.isWhitespace l) ↔ x ∈ l
  rw [mem_rdropWhile_iff _ _ _ hx, mem_dropWhile_iff _ _ _ hx]

/-- Any project name containing a dot or a dollar sign, or longer than 128
characters after trimming, is rejected by `sanitize_project_name`. -/
theorem sanitize_project_name_fails (q : String)
    (h : '.' ∈ q.toList ∨ '$' ∈ q.toList ∨ 128 < (pyStrip q).length) :
    ∃ e, sanitize_project_name q = .error e := by
  have hq0 : q ≠ "" := by
    rintro rfl
    revert h
    decide
  have hdotm : '.' ∈ q.toList → '.' ∈ (pyStrip q).toList := fun hh =>
    (mem_pyStripL_iff '.' q.toList (by decide)).mpr hh
  have hdolm : '$' ∈ q.toList → '$' ∈ (pyStrip q).toList := fun hh =>
    (mem_pyStripL_iff '$' q.toList (by decide)).mpr hh
  have hs0 : pyStrip q ≠ "" := by
    intro h0
    have h0' : (pyStrip q).toList = [] := by rw [h0]; rfl
    rcases h with hh | hh | hh
    · have := hdotm hh; rw [h0'] at this; cases this
    · have := hdolm hh; rw [h0'] at this; cases this
    · rw [h0] at hh; revert hh; decide
  simp only [sanitize_project_name]
  rw [if_neg hq0, if_neg hs0]
  by_cases hdot : (pyStrip q).toList.contains '.' = true
  · rw [if_pos hdot]
    exact ⟨_, rfl⟩
  · rw [if_neg hdot]
    by_cases hdol : (pyStrip q).toList.contains '$' = true
    · rw [if_pos hdol]
      exact ⟨_, rfl⟩
    · rw [if_neg hdol]
      have hlen : 128 < (pyStrip q).length := by
        rcases h with hh | hh | hh
        · exact absurd (by simpa using hdotm hh) hdot
        · exact absurd (by simpa using hdolm hh) hdol
        · exact hh
      by_cases h4 : hasDollarSeq (pyStrip q).toList = true
      · rw [if_pos h4]
        exact ⟨_, rfl⟩
      · rw [if_neg h4]
        by_cases h5 : ((pyStrip q).toList.contains '\x7b' || (pyStrip q).toList.contains '\x7d') = true
        · rw [if_pos h5]
          exact ⟨_, rfl⟩
        · rw [if_neg h5]
          rw [if_pos hlen]
          exact ⟨_, rfl⟩

/-- C5: a project name containing a path-delimiter dot or a store-operator
dollar sign, or whose trimmed length exceeds 128 characters, fails
`sanitize_project_name`; a bind attempt (`set_channel_project`) whose
stripped payload is such a name performs no storage write and returns the
user-facing invalid-name message. -/
theorem C5_invalid_name_rejected_no_write
    (p : String)
    (hbad : '.' ∈ p.toList ∨ '$' ∈ p.toList ∨ 128 < (pyStrip p).length) :
    (∃ e, sanitize_project_name p = .error e) ∧
    ∀ (text t c : String) (now : Int) (st : Store),
      validTeam t → validChan c →
      pyStrip (strip_command text "use project") = pyStrip p →
      ∃ e, set_channel_project none text t c now st =
        .ok ("Invalid project name: " ++ e, st) := by
  refine ⟨sanitize_project_name_fails p hbad, ?_⟩
  intro text t c now st ht hc hstrip
  have hbad' : '.' ∈ (pyStrip p).toList ∨ '$' ∈ (pyStrip p).toList ∨
      128 < (pyStrip (pyStrip p)).length := by
    rcases hbad with h | h | h
    · exact Or.inl ((mem_pyStripL_iff '.' p.toList (by decide)).mpr h)
    · exact Or.inr (Or.inl ((mem_pyStripL_iff '$' p.toList (by decide)).mpr h))
    · exact Or.inr (Or.inr (by rw [pyStrip_idem]; exact h))
  obtain ⟨e, he⟩ := sanitize_project_name_fails (pyStrip p) hbad'
  have hne : pyStrip p ≠ "" := by
    intro h0
    have h0' : (pyStrip p).toList = [] := by rw [h0]; rfl
    rcases hbad' with hh | hh | hh
    · rw [h0'] at hh; cases hh
    · rw [h0'] at hh; cases hh
    · rw [h0] at hh; revert hh; decide
  refine ⟨e, ?_⟩
  simp only [set_channel_project, ht, hc, hstrip]
  rw [if_neg hne, he]

theorem C5_invalid_name_rejected_no_write_witness :
    ('.' ∈ ("a.b" : String).toList ∨ '$' ∈ ("a.b" : String).toList ∨
      128 < (pyStrip "a.b").length) ∧
    (∃ e, sanitize_project_name "a.b" = .error e) ∧
    (∃ e, set_channel_project none "use project a.b" "T1" "C1" 0 [] =
      .ok ("Invalid project name: " ++ e, [])) := by
  have hb : '.' ∈ ("a.b" : String).toList ∨ '$' ∈ ("a.b" : String).toList ∨
      128 < (pyStrip "a.b").length := by decide
  have hthm := C5_invalid_name_rejected_no_write "a.b" hb
  exact ⟨hb, hthm.1, hthm.2 "use project a.b" "T1" "C1" 0 [] (by rfl) (by rfl) (by rfl)⟩

/-! ## C6 -/

/-- Read one field of one project subdocument from the store. -/
def readProjectField (st : Store) (t p f : String) : Option Value :=
  match findOrg st t with
  | some o =>
    match alookup (o.projects.getD []) p with
    | some d => alookup d f
    | none => none
  | none => none

/-- The raw value a channel is bound to, as resolved by the field mutator. -/
def channelBindingVal (st : Store) (t c : String) : Option Value :=
  resolveBindingVal (alookup
    (match findOrg st t with
     | some org => org.channel_projects.getD []
     | none => []) c)

theorem readProjectField_upsert (st : Store) (t p f : String) (v : Value) :
    readProjectField (upsertSetProjectField st t p f v) t p f = some v := by
  cases ho : findOrg st t with
  | some org =>
    simp only [upsertSetProjectField, ho, readProjectField, findOrg_setOrg_self,
      Option.getD_some, alookup_aset_self]
  | none =>
    simp [upsertSetProjectField, ho, readProjectField, findOrg_setOrg_self, alookup]

/-- C6: the field mutator routes a project-scoped field write to the bound
project when the binding passes sanitization, to the implicit `"default"`
project when the channel is absent or unbound, and silently skips the write
(without raising) when the stored bound project name fails sanitization. -/
theorem C6_field_mutator_routing
    (t field : String) (v : Value) (st : Store)
    (ht : validTeam t) (hf : field ∈ PROJECT_FIELDS) :
    (∀ (c : String) (pv : Value) (p : String), validChan c →
      channelBindingVal st t c = some pv → valueTruthy pv = true →
      sanitizeProjectNameVal pv = .ok p →
      ∃ st', update_settings_field none t (some c) field v st = .ok st' ∧
        readProjectField st' t p field = some v) ∧
    ((∃ st', update_settings_field none t none field v st = .ok st' ∧
        readProjectField st' t "default" field = some v) ∧
     (∀ c, validChan c →
      (channelBindingVal st t c = none ∨
        (∃ pv, channelBindingVal st t c = some pv ∧ valueTruthy pv = false)) →
      ∃ st', update_settings_field none t (some c) field v st = .ok st' ∧
        readProjectField st' t "default" field = some v)) ∧
    (∀ (c : String) (pv : Value) (e : String), validChan c →
      channelBindingVal st t c = some pv → valueTruthy pv = true →
      sanitizeProjectNameVal pv = .error e →
      update_settings_field none t (some c) field v st = .ok st) := by
  have hfne : ¬ (pyStrip field = "") := by
    fin_cases hf <;> decide
  refine ⟨?_, ⟨?_, ?_⟩, ?_⟩
  · intro c pv p hc hbv htr hsan
    simp only [channelBindingVal] at hbv
    refine ⟨upsertSetProjectField st t p field v, ?_,
      readProjectField_upsert st t p field v⟩
    simp only [update_settings_field, ht, hc, Except.map]
    rw [if_neg hfne]
    simp only [hbv, htr, hsan, if_true]
  · refine ⟨upsertSetProjectField st t "default" field v, ?_,
      readProjectField_upsert st t "default" field v⟩
    simp only [update_settings_field, ht, Except.map]
    rw [if_neg hfne]
  · intro c hc hun
    refine ⟨upsertSetProjectField st t "default" field v, ?_,
      readProjectField_upsert st t "default" field v⟩
    simp only [update_settings_field, ht, hc, Except.map]
    rw [if_neg hfne]
    rcases hun with hbv | ⟨pv, hbv, htr⟩
    · simp only [channelBindingVal] at hbv
      simp only [hbv]
    · simp only [channelBindingVal] at hbv
      simp only [hbv, htr]
      simp
  · intro c pv e hc hbv htr hsan
    simp only [channelBindingVal] at hbv
    simp only [update_settings_field, ht, hc, Except.map]
    rw [if_neg hfne]
    simp only [hbv, htr, hsan, if_true]

theorem C6_field_mutator_routing_witness :
    validTeam "T1" ∧ ("jira_url" ∈ PROJECT_FIELDS) ∧
    (∃ st', update_settings_field none "T1" (some "C1") "jira_url" (.vstr "https://x")
        [("T1", { joined_date := some (.jstr "0Z"),
                  channel_projects := some [("C1", .cstr "p")],
                  projects := some [] })] = .ok st' ∧
      readProjectField st' "T1" "p" "jira_url" = some (.vstr "https://x")) := by
  have hthm := C6_field_mutator_routing "T1" "jira_url" (.vstr "https://x")
    [("T1", { joined_date := some (.jstr "0Z"),
              channel_projects := some [("C1", .cstr "p")],
              projects := some [] })] (by rfl) (by decide)
  exact ⟨by rfl, by decide, hthm.1 "C1" (.vstr "p") "p" (by rfl) (by rfl) (by rfl) (by rfl)⟩

/-! ## C7 -/

/-- C7: rebinding a channel whose binding record has `welcome_shown = true`
to any other valid project preserves the flag: the new binding record still
carries `welcome_shown = true` (and the new project name). -/
theorem C7_rebind_preserves_welcome_shown
    (t c text q p : String) (now : Int) (st : Store) (o : Org) (d : Doc)
    (ht : validTeam t) (hc : validChan c) (ho : findOrg st t = some o)
    (hbind : alookup (o.channel_projects.getD []) c = some (.cdoc d))
    (hw : alookup d "welcome_shown" = some (.vbool true))
    (hstrip : pyStrip (strip_command text "use project") = q) (hq : q ≠ "")
    (hsan : sanitize_project_name q = .ok p) :
    ∃ st', set_channel_project none text t c now st =
        .ok ("Channel is now using project configuration *" ++ p ++ "*.", st') ∧
      ∃ o', findOrg st' t = some o' ∧
        alookup (o'.channel_projects.getD []) c =
          some (.cdoc [("project", .vstr p), ("welcome_shown", .vbool true)]) := by
  have hpne : p ≠ "" := by
    intro h0
    have hido := sanitize_project_name_idem q p hsan
    rw [h0] at hido
    exact absurd hido (by decide)
  have hsan2 : sanitizeProjectNameVal (.vstr p) = .ok p :=
    sanitize_project_name_idem q p hsan
  have htr2 : valueTruthy (.vstr p) = true := by simp [valueTruthy, hpne]
  obtain ⟨o1, ho1⟩ : ∃ o1 : Org,
      ({ o with channel_projects := some (aset (o.channel_projects.getD []) c (CVal.cdoc [("project", Value.vstr p), ("welcome_shown", Value.vbool true)])) } : Org) = o1 :=
    ⟨_, rfl⟩
  have hcps1 : o1.channel_projects =
      some (aset (o.channel_projects.getD []) c
        (CVal.cdoc [("project", Value.vstr p), ("welcome_shown", Value.vbool true)])) := by
    rw [← ho1]
  have hst1 : upsertSetChannelBinding st t c
      (.cdoc [("project", Value.vstr p), ("welcome_shown", Value.vbool true)]) =
      setOrg st t o1 := by
    simp only [upsertSetChannelBinding, ho, ho1]
  have hpv : resolveBindingVal (alookup (o1.channel_projects.getD []) c) =
      some (.vstr p) := by
    rw [hcps1, Option.getD_some, alookup_aset_self]
    simp [resolveBindingVal, alookup]
  have h2 := get_settings_bound t c now (setOrg st t o1) o1 (.vstr p) p ht hc
    (findOrg_setOrg_self st t o1) hpv htr2 hsan2
  simp only [set_channel_project, ht, hc, hstrip, Except.map]
  rw [if_neg hq]
  simp only [hsan, ho, hbind, hw]
  rw [hst1]
  by_cases hde : pyDocEq
      (dictMerge PROJECT_DEFAULTS ((alookup (o1.projects.getD []) p).getD []))
      ((alookup (o1.projects.getD []) p).getD []) = true
  · rw [if_pos hde] at h2
    rw [h2]
    refine ⟨_, rfl, healedOrg now o1, ?_, ?_⟩
    · rw [setOrg_setOrg]
      exact findOrg_setOrg_self st t _
    · rw [healedOrg_channel_projects, hcps1, Option.getD_some, Option.getD_some,
        alookup_aset_self]
  · rw [if_neg hde] at h2
    rw [h2]
    refine ⟨_, rfl,
      { healedOrg now o1 with
        projects := some (aset (o1.projects.getD []) p
          (dictMerge PROJECT_DEFAULTS ((alookup (o1.projects.getD []) p).getD []))) },
      ?_, ?_⟩
    · rw [setOrg_setOrg]
      exact findOrg_setOrg_self st t _
    · show alookup (((healedOrg now o1).channel_projects).getD []) c = _
      rw [healedOrg_channel_projects, hcps1, Option.getD_some, Option.getD_some,
        alookup_aset_self]

theorem C7_rebind_preserves_welcome_shown_witness :
    validTeam "T1" ∧ sanitize_project_name "B" = .ok "B" ∧
    (∃ st', set_channel_project none "use project B" "T1" "C1" 7
        [("T1", { joined_date := some (.jstr "0Z"),
                  channel_projects := some [("C1", .cdoc [("project", .vstr "A"), ("welcome_shown", .vbool true)])],
                  projects := some [] })] =
        .ok ("Channel is now using project configuration *B*.", st') ∧
      ∃ o', findOrg st' "T1" = some o' ∧
        alookup (o'.channel_projects.getD []) "C1" =
          some (.cdoc [("project", .vstr "B"), ("welcome_shown", .vbool true)])) :=
  ⟨by rfl, by rfl,
    C7_rebind_preserves_welcome_shown "T1" "C1" "use project B" "B" "B" 7
      [("T1", { joined_date := some (.jstr "0Z"),
                channel_projects := some [("C1", .cdoc [("project", .vstr "A"), ("welcome_shown", .vbool true)])],
                projects := some [] })]
      { joined_date := some (.jstr "0Z"),
        channel_projects := some [("C1", .cdoc [("project", .vstr "A"), ("welcome_shown", .vbool true)])],
        projects := some [] }
      [("project", .vstr "A"), ("welcome_shown", .vbool true)]
      (by rfl) (by rfl) (by rfl) (by rfl) (by rfl) (by rfl) (by decide) (by rfl)⟩

/-! ## C8 -/

/-- Run a sequence of `is_allowed` calls (no storage failures), returning
the per-call results and the final limiter store. -/
def runRL (rl : RateLimiter) (team : String) (ts : List Int) (st : RLStore) :
    List (Bool × Option String) × RLStore :=
  match ts with
  | [] => ([], st)
  | x :: rest =>
    let r := rl.is_allowed none team x st
    let k := runRL rl team rest r.2.1
    (r.1 :: k.1, k.2)

theorem runRL_append (rl : RateLimiter) (team : String) (a b : List Int) (st : RLStore) :
    runRL rl team (a ++ b) st =
      ((runRL rl team a st).1 ++ (runRL rl team b (runRL rl team a st).2).1,
       (runRL rl team b (runRL rl team a st).2).2) := by
  induction a generalizing st with
  | nil => simp [runRL]
  | cons x rest ih => simp [runRL, ih]

theorem prune_all_kept (l : List Int) (ws : Int) (h : ∀ y ∈ l, ws ≤ y) :
    pruneRequests (l.map .rdt) ws = l := by
  induction l with
  | nil => rfl
  | cons a rest ih =>
    have ha : ws ≤ a := h a (by simp)
    simp only [List.map_cons, pruneRequests, List.filterMap_cons]
    rw [if_pos ha]
    have := ih fun y hy => h y (by simp [hy])
    simp only [pruneRequests] at this
    rw [this]

theorem foldl_min_self (h : Int) (rest : List Int) (hle : ∀ y ∈ rest, h ≤ y) :
    rest.foldl min h = h := by
  induction rest generalizing h with
  | nil => rfl
  | cons b more ih =>
    simp only [List.foldl_cons]
    rw [min_eq_left (hle b (by simp))]
    exact ih h fun y hy => hle y (by simp [hy])

theorem intListMin_eq (l : List Int) (h : Int) (hhead : l.head? = some h)
    (hle : ∀ y ∈ l, h ≤ y) : intListMin l = h := by
  cases l with
  | nil => cases hhead
  | cons a rest =>
    simp only [List.head?] at hhead
    injection hhead with hhead
    subst hhead
    simp only [intListMin]
    exact foldl_min_self a rest fun y hy => hle y (by simp [hy])

theorem is_allowed_step (rl : RateLimiter) (team : String) (hteam : validTeam team)
    (doc : RLDoc) (st : RLStore) (l : List Int) (x : Int)
    (hfind : alookup st (rl.operation_name ++ ":" ++ team) = some doc)
    (hreq : doc.requests = l.map .rdt)
    (hkeep : ∀ y ∈ l, x - (rl.window_seconds : Int) ≤ y)
    (hlen : l.length < rl.max_requests) :
    rl.is_allowed none team x st =
      ((true, none),
       aset st (rl.operation_name ++ ":" ++ team)
         { doc with requests := (l ++ [x]).map .rdt, updated_at := x },
       false) := by
  have hprune : pruneRequests doc.requests (x - (rl.window_seconds : Int)) = l := by
    rw [hreq]
    exact prune_all_kept l _ hkeep
  simp only [RateLimiter.is_allowed, hteam, opFails, hfind, hprune]
  rw [if_neg (Nat.not_le.mpr hlen)]
  simp

theorem is_allowed_first (rl : RateLimiter) (team : String) (hteam : validTeam team)
    (st : RLStore) (x : Int)
    (hfind : alookup st (rl.operation_name ++ ":" ++ team) = none) :
    rl.is_allowed none team x st =
      ((true, none),
       aset st (rl.operation_name ++ ":" ++ team)
         { team_id := team, requests := [.rdt x], created_at := x, updated_at := x },
       false) := by
  simp only [RateLimiter.is_allowed, hteam, opFails, hfind]
  simp

theorem runRL_run (rl : RateLimiter) (team : String) (hteam : validTeam team)
    (l : List Int) (h : Int) (hhead : l.head? = some h)
    (hin : ∀ y ∈ l, h ≤ y ∧ y ≤ h + (rl.window_seconds : Int))
    (hlen : l.length ≤ rl.max_requests) :
    runRL rl team l [] =
      (l.map fun _ => ((true : Bool), (none : Option String)),
       [(rl.operation_name ++ ":" ++ team,
         { team_id := team, requests := l.map .rdt,
           created_at := h, updated_at := l.getLastD h })]) := by
  induction l using List.reverseRecOn with
  | nil => cases hhead
  | append_singleton l' x ih =>
    by_cases hne' : l' = []
    · subst hne'
      simp only [List.nil_append] at hhead hin hlen ⊢
      simp only [List.head?] at hhead
      injection hhead with hhead
      subst hhead
      simp only [runRL]
      rw [is_allowed_first rl team hteam [] x rfl]
      simp [aset]
    · have hhead' : l'.head? = some h := by
        rw [List.head?_append] at hhead
        cases hh : l'.head? with
        | some z =>
          rw [hh] at hhead
          simp at hhead
          exact congrArg some hhead

        | none => rw [List.head?_eq_none_iff] at hh; exact absurd hh hne'
      have hin' : ∀ y ∈ l', h ≤ y ∧ y ≤ h + (rl.window_seconds : Int) := fun y hy =>
        hin y (by simp [hy])
      have hlen' : l'.length ≤ rl.max_requests := by
        have := hlen
        simp only [List.length_append, List.length_singleton] at this
        omega
      have ihh := ih hhead' hin' hlen'
      rw [runRL_append, ihh]
      have hstep := is_allowed_step rl team hteam
        { team_id := team, requests := l'.map .rdt,
          created_at := h, updated_at := l'.getLastD h }
        [(rl.operation_name ++ ":" ++ team,
          { team_id := team, requests := l'.map .rdt,
            created_at := h, updated_at := l'.getLastD h })]
        l' x (by simp [alookup]) rfl
        (fun y hy => by
          have hy1 := (hin' y hy).1
          have hx2 := (hin x (by simp)).2
          omega)
        (by
          have := hlen
          simp only [List.length_append, List.length_singleton] at this
          omega)
      simp only [runRL, hstep]
      simp [aset, List.getLastD_concat]

/-- C8: starting from no record, with maximum `M ≥ 1` and window `W ≥ 1`,
the first `M` calls inside the window are all allowed; the `(M+1)`-th call
still inside the window of the oldest timestamp is denied with the
remaining-time message for the positive wait `h + W - td`; and a call after
the window of the oldest timestamp has elapsed is allowed again. -/
theorem C8_sliding_window_limit
    (M W : Nat) (team : String) (ts : List Int) (h td ta : Int)
    (_hM : 1 ≤ M) (_hW : 1 ≤ W) (hteam : validTeam team)
    (hlen : ts.length = M) (hhead : ts.head? = some h)
    (hin : ∀ y ∈ ts, h ≤ y ∧ y ≤ h + (W : Int))
    (htd : td < h + (W : Int)) (hta : h + (W : Int) < ta) :
    ∀ rs st1, runRL ⟨M, W, "openai_api"⟩ team ts [] = (rs, st1) →
      (∀ r ∈ rs, r = ((true : Bool), (none : Option String))) ∧
      RateLimiter.is_allowed ⟨M, W, "openai_api"⟩ none team td st1 =
        ((false, some (rlDenyMessage M (h + (W : Int) - td))), st1, false) ∧
      (RateLimiter.is_allowed ⟨M, W, "openai_api"⟩ none team ta st1).1.1 = true := by
  intro rs st1 hrun
  have hrr := runRL_run ⟨M, W, "openai_api"⟩ team hteam ts h hhead hin (le_of_eq hlen)
  rw [hrr] at hrun
  have hrs : rs = ts.map fun _ => ((true : Bool), (none : Option String)) := by
    have := congrArg Prod.fst hrun
    exact this.symm
  have hst1 : st1 = [("openai_api" ++ ":" ++ team,
      { team_id := team, requests := ts.map .rdt,
        created_at := h, updated_at := ts.getLastD h })] := by
    have := congrArg Prod.snd hrun
    exact this.symm
  subst hrs hst1
  have hts_ne : ts ≠ [] := by
    intro h0
    rw [h0] at hhead
    cases hhead
  refine ⟨?_, ?_, ?_⟩
  · intro r hr
    simp only [List.mem_map] at hr
    obtain ⟨y, _, hy⟩ := hr
    exact hy.symm
  · have hprune : pruneRequests (ts.map RReq.rdt) (td - (W : Int)) = ts :=
      prune_all_kept ts _ fun y hy => by
        have := (hin y hy).1
        omega
    have hmin : intListMin ts = h := intListMin_eq ts h hhead fun y hy => (hin y hy).1
    simp only [RateLimiter.is_allowed, hteam, opFails]
    simp [alookup, hprune, hmin, hlen, hts_ne]
    rw [if_pos htd]
  · have hlt : (pruneRequests (ts.map RReq.rdt) (ta - (W : Int))).length < M := by
      cases hts : ts with
      | nil => exact absurd hts hts_ne
      | cons a tail =>
        have ha : a = h := by
          rw [hts] at hhead
          simp only [List.head?] at hhead
          injection hhead
        subst ha
        have hdrop : ¬ (ta - (W : Int) ≤ a) := by omega
        simp only [List.map_cons, pruneRequests, List.filterMap_cons]
        rw [if_neg hdrop]
        refine lt_of_le_of_lt (List.length_filterMap_le _ _) ?_
        rw [List.length_map]
        have hM2 : tail.length + 1 = M := by
          rw [hts] at hlen
          simpa using hlen
        omega
    simp only [RateLimiter.is_allowed, hteam, opFails]
    simp [alookup, Nat.not_le.mpr hlt]

theorem C8_sliding_window_limit_witness :
    validTeam "T1" ∧
    ∃ rs st1, runRL ⟨2, 3600, "openai_api"⟩ "T1" [0, 10] [] = (rs, st1) ∧
      (∀ r ∈ rs, r = ((true : Bool), (none : Option String))) ∧
      RateLimiter.is_allowed ⟨2, 3600, "openai_api"⟩ none "T1" 100 st1 =
        ((false, some (rlDenyMessage 2 (0 + ((3600 : Nat) : Int) - 100))), st1, false) ∧
      (RateLimiter.is_allowed ⟨2, 3600, "openai_api"⟩ none "T1" 99999 st1).1.1 = true := by
  have hthm := C8_sliding_window_limit 2 3600 "T1" [0, 10] 0 100 99999 (by decide) (by decide)
    (by rfl) (by rfl) (by rfl) (by decide) (by decide) (by decide)
  exact ⟨by rfl, _, _, rfl, hthm _ _ rfl⟩

/-! ## C9 -/

/-- C9: the limiter fails open. Whenever an `is_allowed` call caught an
exception (in particular whenever a storage operation raised), it returns
allowed with no message; and `get_remaining_requests` returns the
configured maximum whenever storage raises. A storage failure never causes
a denial. -/
theorem C9_rate_limiter_fails_open :
    (∀ (rl : RateLimiter) (failAt : Option (Nat × DbErr)) (team : String) (now : Int)
      (st : RLStore), (rl.is_allowed failAt team now st).2.2 = true →
      (rl.is_allowed failAt team now st).1 = (true, none)) ∧
    (∀ (rl : RateLimiter) (e : DbErr) (team : String) (now : Int) (st : RLStore),
      (rl.get_remaining_requests (some e) team now st).1 = rl.max_requests) := by
  constructor
  · intro rl failAt team now st h
    unfold RateLimiter.is_allowed at h ⊢
    cases hsan : sanitizeIdCore team "team_id" with
    | error e => simp only [hsan]
    | ok tid =>
      simp only [hsan] at h ⊢
      by_cases h0 : opFails failAt 0 = true
      · simp only [h0, if_true]
      · simp only [h0] at h ⊢
        simp only [Bool.false_eq_true, if_false] at h ⊢
        cases halk : alookup st (rl.operation_name ++ ":" ++ tid) with
        | none =>
          simp only [halk] at h ⊢
          by_cases h1 : opFails failAt 1 = true
          · simp only [h1, if_true]
          · simp only [h1, Bool.false_eq_true, if_false] at h
        | some doc =>
          simp only [halk] at h ⊢
          split_ifs at h ⊢ <;> simp_all
  · intro rl e team now st
    unfold RateLimiter.get_remaining_requests
    cases hsan : sanitizeIdCore team "team_id" with
    | error e2 => simp only [hsan]
    | ok tid => simp only [hsan]

theorem C9_rate_limiter_fails_open_witness :
    ((RateLimiter.is_allowed ⟨2, 60, "op"⟩ (some (0, .connectionFailure)) "T1" 0 []).2.2
      = true) ∧
    ((RateLimiter.is_allowed ⟨2, 60, "op"⟩ (some (0, .connectionFailure)) "T1" 0 []).1
      = (true, none)) ∧
    ((RateLimiter.get_remaining_requests ⟨2, 60, "op"⟩ (some .connectionFailure)
      "T1" 0 []).1 = 2) :=
  ⟨by rfl,
    C9_rate_limiter_fails_open.1 ⟨2, 60, "op"⟩ (some (0, .connectionFailure)) "T1" 0 []
      (by rfl),
    C9_rate_limiter_fails_open.2 ⟨2, 60, "op"⟩ .connectionFailure "T1" 0 []⟩

/-! ## C10 -/

theorem require_project_dbfail (e : DbErr) (t c : String) (st : Store)
    (ht : validTeam t) (hc : validChan c) :
    require_project (some e) t (some c) st = .ok (some msgNoProject) := by
  simp only [require_project, get_channel_project_name, ht, hc]

theorem get_settings_dbfail (e : DbErr) (t : String) (ch : Option String) (now : Int)
    (st : Store) (ht : validTeam t)
    (hc : match ch with | none => True | some c => validChan c) :
    get_settings (some e) t ch now st = .error (.db e) := by
  cases ch with
  | none => simp only [get_settings, ht]
  | some c => simp only [get_settings, ht, hc, Except.map]

theorem update_settings_field_dbfail (e : DbErr) (t : String) (ch : Option String)
    (f : String) (v : Value) (st : Store) (ht : validTeam t)
    (hc : match ch with | none => True | some c => validChan c)
    (hf : ¬ pyStrip f = "") :
    update_settings_field (some e) t ch f v st = .error (.db e) := by
  cases ch with
  | none =>
    simp only [update_settings_field, ht]
    rw [if_neg hf]
  | some c =>
    simp only [update_settings_field, ht, hc, Except.map]
    rw [if_neg hf]

/-- C10 (counterexample): with the storage layer raising a connection
failure, a project-gated command (here `show bug template`) returns the
unbound-channel guidance message, which is not one of the generic
storage-error messages — so "the command returns one of the generic
storage-error messages" is false as stated. -/
theorem C10_counterexample :
    runCmd (some .connectionFailure) .showBugTemplate "T1" (some "C1") 0 [] =
      .ok (msgNoProject, []) ∧
    msgNoProject ≠ get_mongodb_error_message (.db .connectionFailure) ∧
    msgNoProject ≠ get_mongodb_error_message (.db .serverSelectionTimeout) ∧
    msgNoProject ≠ get_mongodb_error_message (.db .operationFailure) ∧
    msgNoProject ≠ get_mongodb_error_message (.db .pyMongoOther) ∧
    msgNoProject ≠ get_mongodb_error_message (.val "KeyError") :=
  ⟨by rfl, by decide, by decide, by decide, by decide, by decide⟩

/-- The validation/availability messages a command can emit before its
first storage access. -/
def preStorageMsg : Cmd → String → Prop
  | .editBugTemplate _, m => m = msgProvideTemplate
  | .updateDocs _, m => m = msgProvideDocs
  | .useProject _, m =>
    m = msgProvideProjectName ∨ (∃ s, m = "Invalid project name: " ++ s) ∨
    m = msgNoChannelDetected
  | .genBugReport _ _ _ _, m => m = msgAIUnavailable ∨ m = msgTooLong
  | _, _ => False

/-- C10 (amended): when the storage layer raises, every embedded command
still returns a user-facing message and never propagates the exception:
the message is the generic storage-error message for the raised category,
or the unbound-channel guidance (for commands gated on the project-binding
precondition, whose binding lookup degrades to "unbound" on storage
failure), or one of the command's own pre-storage validation messages. -/
theorem C10_amended_storage_error_graceful
    (cmd : Cmd) (e : DbErr) (t : String) (ch : Option String) (now : Int) (st : Store)
    (ht : validTeam t)
    (hc : match ch with | none => True | some c => validChan c) :
    ∃ m st', runCmd (some e) cmd t ch now st = .ok (m, st') ∧
      (m = get_mongodb_error_message (.db e) ∨ m = msgNoProject ∨ preStorageMsg cmd m) := by
  cases cmd with
  | showBugTemplate =>
    cases ch with
    | none =>
      refine ⟨get_mongodb_error_message (.db e), st, ?_, Or.inl rfl⟩
      simp only [runCmd, show_bug_report_template, require_project,
        get_settings_dbfail e t none now st ht (by trivial)]
    | some c =>
      refine ⟨msgNoProject, st, ?_, Or.inr (Or.inl rfl)⟩
      simp only [runCmd, show_bug_report_template, require_project_dbfail e t c st ht hc]
  | showProject =>
    cases ch with
    | none =>
      refine ⟨get_mongodb_error_message (.db e), st, ?_, Or.inl rfl⟩
      simp only [runCmd, show_project_overview, require_project,
        get_settings_dbfail e t none now st ht (by trivial)]
    | some c =>
      refine ⟨msgNoProject, st, ?_, Or.inr (Or.inl rfl)⟩
      simp only [runCmd, show_project_overview, require_project_dbfail e t c st ht hc]
  | showJiraQuery =>
    cases ch with
    | none =>
      refine ⟨get_mongodb_error_message (.db e), st, ?_, Or.inl rfl⟩
      simp only [runCmd, show_jira_bug_query, require_project,
        get_settings_dbfail e t none now st ht (by trivial)]
    | some c =>
      refine ⟨msgNoProject, st, ?_, Or.inr (Or.inl rfl)⟩
      simp only [runCmd, show_jira_bug_query, require_project_dbfail e t c st ht hc]
  | editBugTemplate text =>
    cases ch with
    | none =>
      by_cases hp : pyStrip (strip_command text "edit bug template") = ""
      · refine ⟨msgProvideTemplate, st, ?_, Or.inr (Or.inr rfl)⟩
        simp only [runCmd, edit_bug_report_template, require_project, hp]
        simp
      · refine ⟨get_mongodb_error_message (.db e), st, ?_, Or.inl rfl⟩
        simp only [runCmd, edit_bug_report_template, require_project,
          update_settings_field_dbfail e t none "bug_report_template" _ st ht (by trivial)
            (by decide)]
        rw [if_neg hp]
    | some c =>
      refine ⟨msgNoProject, st, ?_, Or.inr (Or.inl rfl)⟩
      simp only [runCmd, edit_bug_report_template, require_project_dbfail e t c st ht hc]
  | updateDocs text =>
    cases ch with
    | none =>
      by_cases hp : pyStrip (strip_command text "update docs") = ""
      · refine ⟨msgProvideDocs, st, ?_, Or.inr (Or.inr rfl)⟩
        simp only [runCmd, update_project_overview, require_project, hp]
        simp
      · refine ⟨get_mongodb_error_message (.db e), st, ?_, Or.inl rfl⟩
        simp only [runCmd, update_project_overview, require_project,
          update_settings_field_dbfail e t none "project_context" _ st ht (by trivial)
            (by decide)]
        rw [if_neg hp]
    | some c =>
      refine ⟨msgNoProject, st, ?_, Or.inr (Or.inl rfl)⟩
      simp only [runCmd, update_project_overview, require_project_dbfail e t c st ht hc]
  | setUseDocs flag =>
    cases ch with
    | none =>
      refine ⟨get_mongodb_error_message (.db e), st, ?_, Or.inl rfl⟩
      simp only [runCmd, set_use_documentation, require_project,
        update_settings_field_dbfail e t none "use_project_context" _ st ht (by trivial)
          (by decide)]
    | some c =>
      refine ⟨msgNoProject, st, ?_, Or.inr (Or.inl rfl)⟩
      simp only [runCmd, set_use_documentation, require_project_dbfail e t c st ht hc]
  | listProjectsC =>
    refine ⟨get_mongodb_error_message (.db e), st, ?_, Or.inl rfl⟩
    simp only [runCmd, list_projects, ht]
  | useProject text =>
    cases ch with
    | none =>
      exact ⟨msgNoChannelDetected, st, rfl, Or.inr (Or.inr (Or.inr (Or.inr rfl)))⟩
    | some c =>
      by_cases hp : pyStrip (strip_command text "use project") = ""
      · refine ⟨msgProvideProjectName, st, ?_, Or.inr (Or.inr (Or.inl rfl))⟩
        simp only [runCmd, set_channel_project, ht, hc, hp]
        simp
      · cases hsan : sanitize_project_name (pyStrip (strip_command text "use project")) with
        | error e2 =>
          refine ⟨"Invalid project name: " ++ e2, st, ?_,
            Or.inr (Or.inr (Or.inr (Or.inl ⟨e2, rfl⟩)))⟩
          simp only [runCmd, set_channel_project, ht, hc, hsan]
          rw [if_neg hp]
        | ok p =>
          refine ⟨get_mongodb_error_message (.db e), st, ?_, Or.inl rfl⟩
          simp only [runCmd, set_channel_project, ht, hc]
          rw [if_neg hp]
          simp only [hsan]
  | genBugReport text ac ai rlSt =>
    cases ch with
    | some c =>
      refine ⟨msgNoProject, st, ?_, Or.inr (Or.inl rfl)⟩
      simp only [runCmd, generate_bug_report, require_project_dbfail e t c st ht hc]
    | none =>
      have hrl : openai_rate_limiter.is_allowed ((some e).map fun e2 => (0, e2))
          t now rlSt = ((true, none), rlSt, true) := by
        simp only [Option.map_some, RateLimiter.is_allowed, ht, opFails]
        simp
      by_cases hac : ac = true
      · by_cases hlen : 4000 < text.length
        · refine ⟨msgTooLong, st, ?_, Or.inr (Or.inr (Or.inr rfl))⟩
          simp only [runCmd, generate_bug_report, require_project, hac, hrl]
          simp [hlen]
        · refine ⟨get_mongodb_error_message (.db e), st, ?_, Or.inl rfl⟩
          simp only [runCmd, generate_bug_report, require_project, hac, hrl,
            get_settings_dbfail e t none now st ht (by trivial)]
          simp [hlen]
      · have hacf : ac = false := by revert hac; cases ac <;> simp
        refine ⟨msgAIUnavailable, st, ?_, Or.inr (Or.inr (Or.inl rfl))⟩
        simp only [runCmd, generate_bug_report, require_project, hacf]
        simp

theorem C10_amended_storage_error_graceful_witness :
    ∃ m st', runCmd (some .connectionFailure) .listProjectsC "T1" (some "C1") 0 [] =
        .ok (m, st') ∧
      (m = get_mongodb_error_message (.db .connectionFailure) ∨ m = msgNoProject ∨
        preStorageMsg .listProjectsC m) :=
  C10_amended_storage_error_graceful .listProjectsC .connectionFailure "T1" (some "C1")
    0 [] (by decide) (by decide)
